import Mathlib

/-!
# recause: buffered batch writer, flush controller and query worker

A shallow embedding of the storage back ends (`storage/elastic/elastic.go`,
`storage/bleve/bleve.go`), of the message type (`storage/message.go`) and of
the HTTP worker (`workers/http.go`).

Conventions of the embedding:

* Go `int`, `int32`, `int64` and `time.Duration` values are `Int`; where the
  code can overflow, the 64-bit wrap-around is written out with `wrapInt64`.
* `time.Time` is the pair (seconds since January 1 of year 1 UTC, nanoseconds),
  the representation used by the Go runtime the code was written for.
* Every call into a collaborator that lives outside the repository (the
  Elasticsearch client, the bleve index, the UUID generator, the clock) is an
  explicit argument of the function that makes the call: the value the call
  returned in that execution.
* The mutexes are not represented: the model is of sequential executions.
-/

namespace Recause

/-! ## Machine integers -/

/-- Smallest value of a Go `int64` (and of `int` on 64-bit platforms). -/
def minInt64 : Int := -9223372036854775808

/-- Largest value of a Go `int64` (and of `int` on 64-bit platforms). -/
def maxInt64 : Int := 9223372036854775807

/-- Membership in the range of a 64-bit signed integer. -/
def isInt64 (x : Int) : Prop := minInt64 ≤ x ∧ x ≤ maxInt64

instance (x : Int) : Decidable (isInt64 x) := by
  unfold isInt64; infer_instance

/-- Two's-complement wrap-around of an exact integer into the `int64` range. -/
def wrapInt64 (x : Int) : Int := (x + 9223372036854775808) % 18446744073709551616 - 9223372036854775808

/-! ## The clock (`time` package) -/

/-- Go `time.Duration`: a count of nanoseconds held in an `int64`. -/
abbrev Duration := Int

/-- Go `time.Time`: seconds since January 1, year 1 00:00:00 UTC, and the
nanosecond offset within that second. The zero value is the zero `Time`. -/
structure Time where
  sec : Int
  nsec : Int
deriving DecidableEq, Repr

namespace Time

/-- The zero value of `time.Time`, what an omitted JSON field leaves behind. -/
def zero : Time := ⟨0, 0⟩

/-- Seconds between January 1 of year 1 and the Unix epoch. -/
def unixToInternal : Int := 62135596800

/-- Go `time.Unix(sec, nsec)`: the nanoseconds are brought into `[0, 1e9)` and
the seconds are moved to the internal epoch, every addition being one of
`int64` values, which wraps around. -/
def Unix (sec nsec : Int) : Time :=
  if nsec < 0 ∨ 1000000000 ≤ nsec then
    let n := Int.tdiv nsec 1000000000
    let sec1 := wrapInt64 (sec + n)
    let nsec1 := nsec - n * 1000000000
    if nsec1 < 0 then
      ⟨wrapInt64 (wrapInt64 (sec1 - 1) + unixToInternal), nsec1 + 1000000000⟩
    else
      ⟨wrapInt64 (sec1 + unixToInternal), nsec1⟩
  else
    ⟨wrapInt64 (sec + unixToInternal), nsec⟩

/-- Go `Time.Unix()`, the method: the seconds since the Unix epoch, again an
`int64` addition. -/
def toUnix (t : Time) : Int := wrapInt64 (t.sec - unixToInternal)

/-- Go `Time.IsZero`. -/
def IsZero (t : Time) : Bool := t.sec == 0 && t.nsec == 0

/-- Go `Time.Second`: the second offset within the minute, in `[0, 59]`. -/
def Second (t : Time) : Int := t.sec % 60

/-- The exact number of nanoseconds from `u` to `t`. -/
def nanosBetween (t u : Time) : Int :=
  (t.sec - u.sec) * 1000000000 + (t.nsec - u.nsec)

/-- Go `Time.Sub`: the duration `t - u`, saturated to the `int64` range. -/
def Sub (t u : Time) : Duration :=
  let d := nanosBetween t u
  if d < minInt64 then minInt64 else if maxInt64 < d then maxInt64 else d

end Time

/-! ## Messages (`storage/message.go`) -/

/-- Extension fields of a message, `map[string]interface{}` in the source,
kept as the list of its key/value pairs in serialised form. -/
abbrev ExtraFields := List (String × String)

/-- The `gelf.Message` delivered by the receiver. `TimeUnix` holds the value of
`int64(msg.TimeUnix)`, the only way the source reads that field. -/
structure GelfMessage where
  Version : String
  Host : String
  Short : String
  Full : String
  TimeUnix : Int
  Level : Int
  Facility : String
  File : String
  Line : Int
  Extra : ExtraFields
deriving DecidableEq, Repr

/-- The `storage.Message` structure. -/
structure Message where
  Id : String
  Version : String
  Host : String
  ShortMessage : String
  FullMessage : String
  Timestamp : Time
  Level : Int
  Facility : String
  File : String
  Line : Int
  Extra : ExtraFields
deriving DecidableEq, Repr

/-- `storage.NewMessageFromGelf`: `Id` is left at its zero value. -/
def NewMessageFromGelf (msg : GelfMessage) : Message :=
  { Id := ""
    Version := msg.Version
    Host := msg.Host
    ShortMessage := msg.Short
    FullMessage := msg.Full
    Timestamp := Time.Unix msg.TimeUnix 0
    Level := msg.Level
    Facility := msg.Facility
    File := msg.File
    Line := msg.Line
    Extra := msg.Extra }

/-! ## Logging -/

/-- Severity of a log entry written through `logger.Instance()`. -/
inductive LogLevel where
  | debug
  | info
  | warning
  | error
deriving DecidableEq, Repr

/-- One log entry: severity, text and the integer fields attached to it. -/
structure LogEntry where
  level : LogLevel
  text : String
  fields : List (String × Int)
deriving DecidableEq, Repr

/-! ## Elasticsearch back end (`storage/elastic/elastic.go`) -/

/-- The `Elastic` structure without its client handle and mutexes. -/
structure Elastic where
  batchSize : Int
  indexName : String
  typeName : String
  ttl : Int
  messages : List Message
  intervalFlush : Duration
  lastFlush : Time
deriving DecidableEq, Repr

/-- One `es.NewBulkIndexRequest().Index(..).Type(..).Id(..).Ttl(..).Doc(..)`. -/
structure BulkIndexRequest where
  Index : String
  DocType : String
  Id : String
  Ttl : Int
  Doc : Message
deriving DecidableEq, Repr

/-- One item of a bulk response: the document identifier and its HTTP status. -/
structure BulkResponseItem where
  Id : String
  Status : Int
deriving DecidableEq, Repr

/-- The part of `es.BulkResponse` the code reads: the result of `Indexed()`. -/
structure BulkResponse where
  Indexed : List BulkResponseItem
deriving DecidableEq, Repr

/-- What one pass through the body of the flush loop did: whether the flush
branch was entered (`mutexFlushMessages` taken), the bulk request handed to
the back end if `Do()` was called, and the log entries written. -/
structure FlushOutcome where
  attempted : Bool
  submitted : Option (List BulkIndexRequest)
  logs : List LogEntry
deriving DecidableEq, Repr

namespace Elastic

/-- `Elastic.HandleMessage`. -/
def HandleMessage (e : Elastic) (msg : GelfMessage) : Elastic :=
  { e with messages := e.messages ++ [NewMessageFromGelf msg] }

/-- The `for _, message := range e.messages` loop of `PeriodicFlush`: one bulk
index request per pending message, in buffer order. `uuid i` is the `i`-th
identifier drawn from `uuid.NewV4()` during this pass. -/
def bulkAdd (e : Elastic) (uuid : Nat → String) : Nat → List Message → List BulkIndexRequest
  | _, [] => []
  | i, message :: rest =>
    { Index := e.indexName, DocType := e.typeName, Id := uuid i, Ttl := e.ttl, Doc := message }
      :: bulkAdd e uuid (i + 1) rest

/-- The condition of the `if` at the head of the flush branch. -/
def flushDue (e : Elastic) (now : Time) : Bool :=
  let nbMessages : Int := e.messages.length
  decide (0 < nbMessages) &&
    (decide (e.batchSize ≤ nbMessages) || decide (e.intervalFlush < now.Sub e.lastFlush))

/-- The body of the `for` loop of `Elastic.PeriodicFlush` after the shutdown
check, up to the final sleep. `now` is the clock reading in the condition,
`now'` the reading stored into `lastFlush`, `doResult` what `esBulk.Do()`
returns if it is called. -/
def flushBody (e : Elastic) (now now' : Time) (uuid : Nat → String)
    (doResult : Except String BulkResponse) : Elastic × FlushOutcome :=
  let nbMessages : Int := e.messages.length
  if flushDue e now then
    let esBulk := bulkAdd e uuid 0 e.messages
    if 0 < esBulk.length then
      match doResult with
      | .error _ =>
        (e, { attempted := true, submitted := some esBulk,
              logs := [⟨.warning, "Unable to batch index messages", []⟩] })
      | .ok esResponse =>
        let nbCreated : Int := esResponse.Indexed.length
        let entry : LogEntry :=
          if nbCreated ≠ nbMessages then
            ⟨.warning, "Not all messages were indexed",
              [("nb_messages", nbMessages), ("nb_created", nbCreated)]⟩
          else
            ⟨.info, "Messages successfully indexed", [("nb_messages", nbMessages)]⟩
        ({ e with lastFlush := now', messages := [] },
          { attempted := true, submitted := some esBulk, logs := [entry] })
    else
      (e, { attempted := true, submitted := none, logs := [] })
  else
    (e, { attempted := false, submitted := none, logs := [] })

/-- One iteration of the `for` loop of `Elastic.PeriodicFlush`: `none` when the
`die` channel is closed (the function returns), otherwise the state and
outcome of the body. -/
def PeriodicFlush (e : Elastic) (dieClosed : Bool) (now now' : Time) (uuid : Nat → String)
    (doResult : Except String BulkResponse) : Option (Elastic × FlushOutcome) :=
  if dieClosed then none else some (flushBody e now now' uuid doResult)

end Elastic

/-! ## Bleve back end (`storage/bleve/bleve.go`) -/

/-- The `Bleve` structure without its index handle and mutexes. -/
structure Bleve where
  batchSize : Int
  messages : List Message
  intervalCleanup : Duration
  intervalFlush : Duration
  lastFlush : Time
deriving DecidableEq, Repr

/-- A `bv.Batch`: the index operations it holds, keyed by document identifier
(a later operation on an identifier replaces the earlier one). -/
abbrev Batch := List (String × Message)

namespace Batch

/-- `Batch.Size`. -/
def Size (b : Batch) : Int := b.length

/-- `Batch.Index(id, data)`: `indexErr id data` is the error of mapping the
document, if any; on an error the batch is left as it was. -/
def Index (b : Batch) (indexErr : String → Message → Option String) (id : String)
    (data : Message) : Batch × Option String :=
  match indexErr id data with
  | some err => (b, some err)
  | none => (b.filter (fun op => op.1 != id) ++ [(id, data)], none)

end Batch

/-- What one pass through the body of the Bleve flush loop did: whether the
flush branch was entered, the batch handed to `index.Batch` if it was called,
and the log entries written. -/
structure BleveOutcome where
  attempted : Bool
  submitted : Option Batch
  logs : List LogEntry
deriving DecidableEq, Repr

namespace Bleve

/-- `Bleve.HandleMessage`. -/
def HandleMessage (b : Bleve) (msg : GelfMessage) : Bleve :=
  { b with messages := b.messages ++ [NewMessageFromGelf msg] }

/-- The `for _, message := range b.messages` loop of `PeriodicFlush`: every
pending message is offered to the batch under a fresh identifier; a message the
batch refuses is logged and skipped. -/
def indexAll (uuid : Nat → String) (indexErr : String → Message → Option String) :
    Nat → List Message → Batch × List LogEntry → Batch × List LogEntry
  | _, [], acc => acc
  | i, message :: rest, (batch, logs) =>
    match Batch.Index batch indexErr (uuid i) message with
    | (batch', some _) =>
      indexAll uuid indexErr (i + 1) rest
        (batch', logs ++ [⟨.warning, "Unable to add message to batch", []⟩])
    | (batch', none) => indexAll uuid indexErr (i + 1) rest (batch', logs)

/-- The condition of the `if` at the head of the flush branch. -/
def flushDue (b : Bleve) (now : Time) : Bool :=
  let nbMessages : Int := b.messages.length
  decide (0 < nbMessages) &&
    (decide (b.batchSize ≤ nbMessages) || decide (b.intervalFlush < now.Sub b.lastFlush))

/-- The body of the `for` loop of `Bleve.PeriodicFlush` after the shutdown
check, up to the final sleep. `batchResult` is the error `b.index.Batch`
returns if it is called (`none` for success). -/
def flushBody (b : Bleve) (now now' : Time) (uuid : Nat → String)
    (indexErr : String → Message → Option String) (batchResult : Option String) :
    Bleve × BleveOutcome :=
  if flushDue b now then
    let (bvBatchIndex, logs) := indexAll uuid indexErr 0 b.messages ([], [])
    if 0 < bvBatchIndex.Size then
      match batchResult with
      | some _ =>
        (b, { attempted := true, submitted := some bvBatchIndex,
              logs := logs ++ [⟨.warning, "Unable to batch index messages", []⟩] })
      | none =>
        ({ b with lastFlush := now', messages := [] },
          { attempted := true, submitted := some bvBatchIndex,
            logs := logs ++ [⟨.info, "Messages successfully indexed",
              [("nb_messages", bvBatchIndex.Size)]⟩] })
    else
      (b, { attempted := true, submitted := none, logs := logs })
  else
    (b, { attempted := false, submitted := none, logs := [] })

/-- One iteration of the `for` loop of `Bleve.PeriodicFlush`: `none` when the
`die` channel is closed (the function returns), otherwise the state and
outcome of the body. -/
def PeriodicFlush (b : Bleve) (dieClosed : Bool) (now now' : Time) (uuid : Nat → String)
    (indexErr : String → Message → Option String) (batchResult : Option String) :
    Option (Bleve × BleveOutcome) :=
  if dieClosed then none else some (flushBody b now now' uuid indexErr batchResult)

end Bleve

/-! ## Storage interface (`storage/storage.go`) -/

/-- A Go `error` value: an HTTP error answered by Elasticsearch, with its
status code, or any other failure. -/
inductive GoError where
  | elastic (status : Int) (text : String)
  | other (text : String)
deriving DecidableEq, Repr

/-- Go `len(s)` of a string: its length in bytes. -/
def goLen (s : String) : Int := s.utf8ByteSize

/-- The `storage.SearchQuery` structure; an omitted `from` or `to` is the zero
`Time`. -/
structure SearchQuery where
  Query : String
  Limit : Int
  Offset : Int
  From : Time
  To : Time
deriving DecidableEq, Repr

/-- The `storage.SearchResult` structure. -/
structure SearchResult where
  Total : Int
  TookMs : Int
  Limit : Int
  Offset : Int
  Messages : List Message
deriving DecidableEq, Repr

/-- A stored document as `GetMessage` returns it, `map[string]interface{}` in
the source, kept as the list of its key/value pairs in serialised form. -/
abbrev Document := List (String × String)

/-- The methods of `storage.Storage` the HTTP worker calls. `ValidateQuery`
returns the error, `none` for a valid query. -/
structure Storage where
  GetMessage : String → Except GoError Document
  GetMessages : SearchQuery → Except GoError SearchResult
  ValidateQuery : String → Option GoError

/-! ## Searching and reading in Elasticsearch (`storage/elastic/elastic.go`) -/

/-- The queries of the Elasticsearch client that `GetMessages` builds: a
query-string query, a match-all query, and a range query on a field with
optional lower (`From`) and upper (`To`) bounds. -/
inductive EsQuery where
  | queryString (query : String)
  | matchAll
  | range (name : String) (lower upper : Option Time)
deriving DecidableEq, Repr

/-- The search that `GetMessages` sends: index, type, the filters of the bool
query, the sort field and direction, and the page. -/
structure SearchRequest where
  Index : String
  DocType : String
  Filters : List EsQuery
  SortField : String
  Ascending : Bool
  From : Int
  Size : Int
deriving DecidableEq, Repr

namespace Elastic

/-- `Elastic.GetMessage`: `clientGet index type id` is what the client's
`Get()...Do()` returns (the raw source of the document, or an error), and
`unmarshal` is `json.Unmarshal` into a map. -/
def GetMessage (e : Elastic) (clientGet : String → String → String → Except GoError String)
    (unmarshal : String → Except GoError Document) (msgId : String) : Except GoError Document :=
  match clientGet e.indexName e.typeName msgId with
  | .error err => .error err
  | .ok source =>
    match unmarshal source with
    | .error err => .error err
    | .ok doc => .ok doc

/-- The filter list `GetMessages` builds from a query. -/
def searchFilters (q : SearchQuery) : List EsQuery :=
  let filters : List EsQuery :=
    if 0 < goLen q.Query then [EsQuery.queryString q.Query] else [EsQuery.matchAll]
  if 0 < q.From.Second ∧ 0 < q.To.Second then
    filters ++ [EsQuery.range "timestamp" (some q.From) (some q.To)]
  else if 0 < q.From.Second ∧ q.To.Second ≤ 0 then
    filters ++ [EsQuery.range "timestamp" (some q.From) none]
  else if 0 < q.To.Second ∧ q.From.Second ≤ 0 then
    filters ++ [EsQuery.range "timestamp" none (some q.To)]
  else
    filters

/-- The search request `GetMessages` sends for a query. -/
def searchRequest (e : Elastic) (q : SearchQuery) : SearchRequest :=
  { Index := e.indexName, DocType := e.typeName, Filters := searchFilters q,
    SortField := "timestamp", Ascending := false, From := q.Offset, Size := q.Limit }

/-- The Elastic storage behind the `Storage` interface. `clientSearch` runs a
search request and decodes its hits, `clientValidate` is the outcome of
`ValidateQuery` for a query string. -/
def storage (e : Elastic) (clientGet : String → String → String → Except GoError String)
    (unmarshal : String → Except GoError Document)
    (clientSearch : SearchRequest → Except GoError SearchResult)
    (clientValidate : String → Option GoError) : Storage :=
  { GetMessage := GetMessage e clientGet unmarshal
    GetMessages := fun q => clientSearch (searchRequest e q)
    ValidateQuery := clientValidate }

end Elastic

/-! ## HTTP worker (`workers/http.go`) -/

/-- The `WorkerHttp` structure without its storage handle. -/
structure WorkerHttp where
  addr : String
  maxPerPage : Int
  maxResults : Int
deriving DecidableEq, Repr

/-- The three lookups `NewWorkerHttp` makes in the `http` section of the
configuration, each a value or an error. -/
structure HttpConfig where
  addr : Except GoError String
  maxPerPage : Except GoError Int
  maxResults : Except GoError Int

/-- `NewWorkerHttp`: `none` when `cli.CheckError` ends the process because the
address is missing. The second test reads `maxPerPage`, as the source does. -/
def NewWorkerHttp (cfg : HttpConfig) : Option WorkerHttp :=
  match cfg.addr with
  | .error _ => none
  | .ok addr =>
    let maxPerPage : Int :=
      match cfg.maxPerPage with
      | .error _ => 100
      | .ok v => if v ≤ 0 then 100 else v
    let maxResults : Int :=
      match cfg.maxResults with
      | .error _ => 1000
      | .ok v => if maxPerPage ≤ 0 then 1000 else v
    some { addr := addr, maxPerPage := maxPerPage, maxResults := maxResults }

/-- Go `unicode.IsSpace`. -/
def isSpace (c : Char) : Bool :=
  let n := c.toNat
  (9 ≤ n && n ≤ 13) || n == 32 || n == 133 || n == 160 || n == 5760 ||
    (8192 ≤ n && n ≤ 8202) || n == 8232 || n == 8233 || n == 8239 || n == 8287 || n == 12288

/-- Go `strings.TrimSpace`. -/
def TrimSpace (s : String) : String :=
  ⟨((s.data.dropWhile isSpace).reverse.dropWhile isSpace).reverse⟩

/-- What a handler hands to `statusOk`. -/
inductive ResponseData where
  | document (doc : Document)
  | search (result : SearchResult)
deriving DecidableEq, Repr

/-- An HTTP response: status code and the fields of the JSON body
(`responseError` or `responseOk`). -/
structure Response where
  code : Int
  status : String
  message : String
  data : Option ResponseData
deriving DecidableEq, Repr

/-- `statusError`. -/
def statusError (message : String) (code : Int) : Response :=
  { code := code, status := "error", message := message, data := none }

/-- `statusOk`. -/
def statusOk (data : ResponseData) : Response :=
  { code := 200, status := "ok", message := "", data := some data }

/-- A call a handler made on the storage. -/
inductive StorageCall where
  | getMessage (msgId : String)
  | validateQuery (query : String)
  | getMessages (q : SearchQuery)
deriving DecidableEq, Repr

/-- What a handler did: its response, the storage calls it made in order, and
the log entries it wrote. -/
structure Handled where
  response : Response
  calls : List StorageCall
  logs : List LogEntry
deriving DecidableEq, Repr

namespace WorkerHttp

/-- `handleApiDump`, for the `msgId` variable of the route. -/
def handleApiDump (_wh : WorkerHttp) (st : Storage) (msgId : String) : Handled :=
  if goLen msgId = 0 then
    { response := statusError "Message not found" 404, calls := [], logs := [] }
  else
    match st.GetMessage msgId with
    | .error _ =>
      { response := statusError "An error occured while getting message" 500,
        calls := [.getMessage msgId],
        logs := [⟨.warning, "Unable to find message", []⟩] }
    | .ok doc =>
      { response := statusOk (.document doc), calls := [.getMessage msgId], logs := [] }

/-- The rewriting of `q.Limit` in `handleApiSearch`. -/
def clampLimit (wh : WorkerHttp) (q : SearchQuery) : SearchQuery :=
  if q.Limit ≤ 0 ∨ wh.maxPerPage < q.Limit then { q with Limit := wh.maxPerPage } else q

/-- The rewriting of `q.Offset` in `handleApiSearch`; the sum and the
difference are those of 64-bit integers. -/
def clampOffset (wh : WorkerHttp) (q : SearchQuery) : SearchQuery :=
  if q.Offset < 0 then { q with Offset := 0 }
  else if wh.maxResults < wrapInt64 (q.Offset + q.Limit) then
    { q with Offset := wrapInt64 (wh.maxResults - q.Limit) }
  else q

/-- The query `handleApiSearch` passes to `GetMessages` for a parsed query:
trimmed, then limit and offset rewritten. -/
def searchArgument (wh : WorkerHttp) (q : SearchQuery) : SearchQuery :=
  clampOffset wh (clampLimit wh { q with Query := TrimSpace q.Query })

/-- The part of `handleApiSearch` after the validation of the query: limit and
offset are rewritten and the search is run. `calls` are the storage calls made
so far. -/
def runSearch (wh : WorkerHttp) (st : Storage) (q : SearchQuery) (calls : List StorageCall) :
    Handled :=
  let q := clampOffset wh (clampLimit wh q)
  match st.GetMessages q with
  | .error _ =>
    { response := statusError "An error occured while searching messages" 500,
      calls := calls ++ [.getMessages q],
      logs := [⟨.error, "Unable to search messages", []⟩] }
  | .ok searchResponse =>
    { response := statusOk (.search searchResponse), calls := calls ++ [.getMessages q],
      logs := [] }

/-- `handleApiSearch`: `body` is the result of `ioutil.ReadAll(req.Body)` and
`unmarshal` is `json.Unmarshal` into a `SearchQuery`. -/
def handleApiSearch (wh : WorkerHttp) (st : Storage) (body : Except GoError String)
    (unmarshal : String → Except GoError SearchQuery) : Handled :=
  match body with
  | .error _ =>
    { response := statusError "Request body is empty" 400, calls := [],
      logs := [⟨.warning, "Unable to read request body", []⟩] }
  | .ok requestBody =>
    match unmarshal requestBody with
    | .error _ =>
      { response := statusError "Provided JSON is invalid" 400, calls := [],
        logs := [⟨.warning, "Unable to parse JSON", []⟩] }
    | .ok parsed =>
      let q : SearchQuery := { parsed with Query := TrimSpace parsed.Query }
      if 0 < goLen q.Query then
        match st.ValidateQuery q.Query with
        | some _ =>
          { response := statusError "Provided query is invalid" 400,
            calls := [.validateQuery q.Query],
            logs := [⟨.warning, "Unable to validate JSON query", []⟩] }
        | none => runSearch wh st q [.validateQuery q.Query]
      else
        runSearch wh st q []

end WorkerHttp

/-! ## Retention cleaner of the Bleve back end (`storage/bleve/bleve.go`) -/

namespace Time

/-- Go `Time.Add`; the seconds are added as `int64` values. -/
def Add (t : Time) (d : Duration) : Time :=
  let sec := wrapInt64 (t.sec + Int.tdiv d 1000000000)
  let nsec := t.nsec + Int.tmod d 1000000000
  if 1000000000 ≤ nsec then ⟨wrapInt64 (sec + 1), nsec - 1000000000⟩
  else if nsec < 0 then ⟨wrapInt64 (sec - 1), nsec + 1000000000⟩
  else ⟨sec, nsec⟩

/-- Go `Time.Before`. -/
def Before (t u : Time) : Bool :=
  decide (t.sec < u.sec) || (decide (t.sec = u.sec) && decide (t.nsec < u.nsec))

/-- The instant that `Format(time.RFC3339)` writes down: the layout has no
fraction of a second. -/
def FormatRFC3339 (t : Time) : Time := ⟨t.sec, 0⟩

end Time

/-- The lookups `NewBleveStorage` makes in the `bleve` section of the
configuration after the index was opened: the batch size, and the two
intervals after `time.ParseDuration` (an error standing for a missing option
or an unparsable text). -/
structure BleveConfig where
  batchSize : Except GoError Int
  intervalCleanup : Except GoError Duration
  intervalFlush : Except GoError Duration

/-- `NewBleveStorage`, once the data path is known and the index is open:
the retention window is stored negated. `now` is the clock reading stored in
`lastFlush`. -/
def NewBleveStorage (cfg : BleveConfig) (now : Time) : Bleve :=
  let batchSize : Int :=
    match cfg.batchSize with
    | .error _ => 10
    | .ok v => v
  let intervalCleanup : Duration :=
    match cfg.intervalCleanup with
    | .error _ => 720 * 3600 * 1000000000
    | .ok d => d
  let intervalFlush : Duration :=
    match cfg.intervalFlush with
    | .error _ => 1000000000
    | .ok d => d
  { batchSize := batchSize, messages := [], intervalCleanup := -intervalCleanup,
    intervalFlush := intervalFlush, lastFlush := now }

/-- The content of the bleve index: the stored documents with their
identifiers, in the order an unsorted search lists them. -/
abbrev BleveIndex := List (String × Message)

/-- What one cycle of `periodicCleanup` did: the index it leaves, the value of
`bvNbCleaned`, the log entries written, and whether the paging loop was left
through `bvCleaningNow = false`. -/
structure CleanupCycle where
  index : BleveIndex
  nbCleaned : Int
  logs : List LogEntry
  finished : Bool
deriving DecidableEq, Repr

namespace Bleve

/-- The documents a date-range query with upper end `till` on the field
`timestamp` matches: those stamped before `till`. -/
def obsolete (till : Time) (index : BleveIndex) : BleveIndex :=
  index.filter (fun doc => doc.2.Timestamp.Before till)

/-- `b.index.Search` for `bv.NewSearchRequestOptions(bvQuery, limit, offset, false)`:
the page of `limit` hits that starts after `offset` matches. -/
def searchObsolete (index : BleveIndex) (till : Time) (limit offset : Nat) : BleveIndex :=
  ((obsolete till index).drop offset).take limit

/-- `b.index.Batch` for a batch of `Delete` operations on `ids`. -/
def batchDelete (index : BleveIndex) (ids : List String) : BleveIndex :=
  index.filter (fun doc => !ids.contains doc.1)

/-- The loop `for bvCleaningNow != false` of `periodicCleanup`, with `limit`
fixed at 20. `searchFails k` and `batchFails k` tell whether the search and
the batch call of the `k`-th pass return an error. The first argument bounds
the number of passes; `finished` is `false` when the bound is reached. -/
def cleanupPages (till : Time) (searchFails batchFails : Nat → Bool) :
    Nat → Nat → BleveIndex → Nat → Int → List LogEntry → CleanupCycle
  | 0, _, index, _, nbCleaned, logs =>
    { index := index, nbCleaned := nbCleaned, logs := logs, finished := false }
  | fuel + 1, pass, index, offset, nbCleaned, logs =>
    if searchFails pass then
      { index := index, nbCleaned := nbCleaned,
        logs := logs ++ [⟨.warning, "Unable to get obsolete messages from index", []⟩],
        finished := true }
    else
      let hits := searchObsolete index till 20 offset
      if hits.length = 0 then
        { index := index, nbCleaned := nbCleaned, logs := logs, finished := true }
      else
        let ids := hits.map (fun hit => hit.1)
        if batchFails pass then
          { index := index, nbCleaned := nbCleaned,
            logs := logs ++ [⟨.warning, "Unable to delete obsolete messages from index", []⟩],
            finished := true }
        else
          cleanupPages till searchFails batchFails fuel (pass + 1) (batchDelete index ids)
            (offset + 20) (nbCleaned + ids.dedup.length) logs

/-- One cycle of the `for` loop of `periodicCleanup` that passed the shutdown
check, up to the final sleep. Every pass that reaches the next one deletes at
least one document, so `index.length + 1` passes are never exhausted. -/
def periodicCleanup (b : Bleve) (index : BleveIndex) (now : Time)
    (searchFails batchFails : Nat → Bool) : CleanupCycle :=
  let till := (now.Add b.intervalCleanup).FormatRFC3339
  let pages := cleanupPages till searchFails batchFails (index.length + 1) 0 index 0 0 []
  { pages with
    logs := pages.logs ++
      if 0 < pages.nbCleaned then
        [⟨.info, "Obsolete messages were deleted from index", [("nb_messages", pages.nbCleaned)]⟩]
      else [] }

/-- The cutoff of a cleanup cycle: the clock reading minus the retention
window, as the date-range query reads it. -/
def cutoff (b : Bleve) (now : Time) : Time := (now.Add b.intervalCleanup).FormatRFC3339

end Bleve

/-! ## Receiver worker (`workers/receiver.go`) -/

/-- What `wr.reader.ReadMessage()` returned: a message, a timeout of the
connection (`*net.OpError` with `Timeout()`), or another error. -/
inductive ReadResult where
  | message (msg : GelfMessage)
  | timeout
  | failed
deriving DecidableEq, Repr

/-- What an iteration of the receiver loop does to its surroundings. -/
inductive ReceiverEffect where
  | setDeadline
  | readMessage
  | handleMessage (msg : GelfMessage)
  | log (entry : LogEntry)
deriving DecidableEq, Repr

/-- One iteration of the loop of `WorkerReceiver.Run`: whether `Run` returned,
whether the deferred `wg.Done()` ran, and the effects of the iteration in
order. -/
structure ReceiverPass where
  returned : Bool
  wgDone : Bool
  effects : List ReceiverEffect
deriving DecidableEq, Repr

namespace WorkerReceiver

/-- One iteration of the `for` loop of `WorkerReceiver.Run`. `deadlineErr` is
the error of `SetDeadline`, `read` the result of `ReadMessage`; a message read
is handed to `HandleMessage` in a goroutine of its own. -/
def Run (dieClosed : Bool) (deadlineErr : Option GoError) (read : ReadResult) : ReceiverPass :=
  if dieClosed then
    { returned := true, wgDone := true, effects := [] }
  else
    let deadline : List ReceiverEffect :=
      match deadlineErr with
      | some _ => [.setDeadline, .log ⟨.warning, "Unable to set timeout", []⟩]
      | none => [.setDeadline]
    match read with
    | .timeout =>
      { returned := false, wgDone := false,
        effects := deadline ++
          [.readMessage, .log ⟨.debug, "Reached timeout, everything is ok", []⟩] }
    | .failed =>
      { returned := false, wgDone := false,
        effects := deadline ++ [.readMessage, .log ⟨.warning, "Unable to read message", []⟩] }
    | .message msg =>
      { returned := false, wgDone := false,
        effects := deadline ++ [.readMessage, .handleMessage msg] }

end WorkerReceiver

/-! ## The flush loop over several iterations -/

/-- What one iteration of `Elastic.PeriodicFlush` meets: the state of the `die`
channel, the two clock readings, the identifiers and the bulk result. -/
structure FlushInput where
  dieClosed : Bool
  now : Time
  now' : Time
  uuid : Nat → String
  doResult : Except String BulkResponse

/-- Where `Elastic.PeriodicFlush` stands after a number of iterations: the
storage, the outcomes of the iterations that ran their body, and whether the
function has returned. -/
structure FlushRun where
  storage : Elastic
  outcomes : List FlushOutcome
  returned : Bool
deriving DecidableEq, Repr

/-- `Elastic.PeriodicFlush` over the iterations listed: the loop ends, and the
function returns, at the first iteration that finds `die` closed. -/
def Elastic.PeriodicFlushLoop (e : Elastic) : List FlushInput → FlushRun
  | [] => { storage := e, outcomes := [], returned := false }
  | input :: rest =>
    match Elastic.PeriodicFlush e input.dieClosed input.now input.now' input.uuid
        input.doResult with
    | none => { storage := e, outcomes := [], returned := true }
    | some (e', outcome) =>
      let tail := Elastic.PeriodicFlushLoop e' rest
      { tail with outcomes := outcome :: tail.outcomes }

/-! ## Life cycle of the process (`main.go`) -/

/-- The process once `actionRun` has started its goroutines: the state of the
`die` channel, the counter of the wait group, which of the three loops are
still running, whether `actionRun` has returned (the process exits), and
whether the process has panicked. -/
structure Process where
  dieClosed : Bool
  wgCounter : Int
  flushRunning : Bool
  httpRunning : Bool
  receiverRunning : Bool
  actionRunReturned : Bool
  panicked : Bool
deriving DecidableEq, Repr

/-- What happens next in the process. -/
inductive ProcessStep where
  /-- The signal goroutine receives an interrupt and runs `close(die)`. -/
  | interrupt
  /-- `PeriodicFlush` starts an iteration of its loop. -/
  | flushIteration
  /-- The watcher of the HTTP worker starts an iteration of its loop; on a
  closed `die` it closes the server, `ListenAndServe` and `Run` return. -/
  | httpWatcher
  /-- `ListenAndServe` returns with an error of its own, and `Run` returns. -/
  | httpListenFails
  /-- `WorkerReceiver.Run` starts an iteration of its loop. -/
  | receiverIteration
  /-- The scheduler looks at `wg.Wait()` in `actionRun`. -/
  | waitGroupWait
deriving DecidableEq, Repr

namespace Process

/-- The process right after the `for _, w := range workersList` loop of
`actionRun`: `die` is open, `wg.Add(len(workersList))` has set the counter to
2, and `PeriodicFlush` and the two workers run. -/
def start : Process :=
  { dieClosed := false, wgCounter := 2, flushRunning := true, httpRunning := true,
    receiverRunning := true, actionRunReturned := false, panicked := false }

/-- One step of the process. Nothing runs after `actionRun` has returned or
after a panic. A second `close(die)` panics. `PeriodicFlush` is started with
`go storage.PeriodicFlush(die)` and does not touch the wait group; the workers
run `wg.Done()` when they return. -/
def step (p : Process) (s : ProcessStep) : Process :=
  if p.actionRunReturned || p.panicked then p
  else
    match s with
    | .interrupt =>
      if p.dieClosed then { p with panicked := true } else { p with dieClosed := true }
    | .flushIteration =>
      if p.flushRunning && p.dieClosed then { p with flushRunning := false } else p
    | .httpWatcher =>
      if p.httpRunning && p.dieClosed then
        { p with httpRunning := false, wgCounter := p.wgCounter - 1 }
      else p
    | .httpListenFails =>
      if p.httpRunning then { p with httpRunning := false, wgCounter := p.wgCounter - 1 }
      else p
    | .receiverIteration =>
      if p.receiverRunning && p.dieClosed then
        { p with receiverRunning := false, wgCounter := p.wgCounter - 1 }
      else p
    | .waitGroupWait =>
      if p.wgCounter = 0 then { p with actionRunReturned := true } else p

/-- The process after a sequence of steps. -/
def run (p : Process) (steps : List ProcessStep) : Process := steps.foldl step p

/-- The number of workers that have not yet run `wg.Done()`. -/
def pendingWorkers (p : Process) : Int :=
  (if p.httpRunning then 1 else 0) + (if p.receiverRunning then 1 else 0)

end Process

/-! ## Properties of the flush loop, as the specification words them -/

/-- The flush condition in the words of the specification:
`pending > 0 AND (pending >= batchSize OR elapsed > flushInterval)`. -/
def flushCondition (pending : Nat) (batchSize : Int) (elapsed flushInterval : Duration) : Prop :=
  0 < pending ∧ ((batchSize ≤ (pending : Int)) ∨ flushInterval < elapsed)

instance (pending : Nat) (batchSize : Int) (elapsed flushInterval : Duration) :
    Decidable (flushCondition pending batchSize elapsed flushInterval) := by
  unfold flushCondition; infer_instance

/-- Whether the bulk call reported the document with identifier `id` among its
indexed items. -/
def Elastic.reportedStored (doResult : Except String BulkResponse) (id : String) : Bool :=
  match doResult with
  | .ok esResponse => esResponse.Indexed.any (fun item => item.Id == id)
  | .error _ => false

/-- No record is dropped by a flush step of the Elastic variant, in the words
of the specification: every record pending at the start of the step is
afterwards reported as stored by the back end or still in the pending buffer. -/
def Elastic.noRecordDropped (e : Elastic) (now now' : Time) (uuid : Nat → String)
    (doResult : Except String BulkResponse) : Prop :=
  ∀ (i : Nat) (m : Message), e.messages[i]? = some m →
    Elastic.reportedStored doResult (uuid i) = true ∨
      m ∈ (Elastic.flushBody e now now' uuid doResult).1.messages

/-- No record is dropped by a flush step of the Bleve variant: every record
pending at the start of the step is afterwards part of a batch the index
accepted or still in the pending buffer. -/
def Bleve.noRecordDropped (b : Bleve) (now now' : Time) (uuid : Nat → String)
    (indexErr : String → Message → Option String) (batchResult : Option String) : Prop :=
  ∀ (i : Nat) (m : Message), b.messages[i]? = some m →
    (batchResult = none ∧ ∃ batch,
        (Bleve.flushBody b now now' uuid indexErr batchResult).2.submitted = some batch ∧
        (uuid i, m) ∈ batch) ∨
      m ∈ (Bleve.flushBody b now now' uuid indexErr batchResult).1.messages

/-- The warning `Elastic.PeriodicFlush` writes when the bulk response lists a
number of indexed items other than the number of messages submitted. -/
def Elastic.warnsNotAllIndexed (out : FlushOutcome) : Prop :=
  ∃ entry ∈ out.logs, entry.level = LogLevel.warning ∧ entry.text = "Not all messages were indexed"

/-- The warning `Bleve.PeriodicFlush` writes for a message the batch refused. -/
def Bleve.refusedEntry : LogEntry := ⟨.warning, "Unable to add message to batch", []⟩

/-- An index-error outcome that refuses the documents of host `h2` only. -/
def sampleIndexErr (_id : String) (data : Message) : Option String :=
  if data.Host = "h2" then some "cannot map document" else none

/-! ## Properties of the query worker, as the specification words them -/

/-- The limit the specification says is passed to `GetMessages`. -/
def claimedLimit (limit maxPerPage : Int) : Int :=
  if limit ≤ 0 ∨ maxPerPage < limit then maxPerPage else limit

/-- The offset the specification says is passed to `GetMessages`: a negative
offset is rewritten to 0, and whenever the rewritten offset plus the limit
exceeds `maxResults` the offset becomes `maxResults - limit`. -/
def claimedOffset (limit offset maxResults : Int) : Int :=
  let rewritten := if offset < 0 then 0 else offset
  if maxResults < rewritten + limit then maxResults - limit else rewritten

/-- The bounds the specification states for the arguments of `GetMessages`:
a non-negative offset and a limit in `(0, maxPerPage]`. -/
def pagingInBounds (wh : WorkerHttp) (q : SearchQuery) : Prop :=
  0 ≤ (WorkerHttp.searchArgument wh q).Offset ∧
    0 < (WorkerHttp.searchArgument wh q).Limit ∧
    (WorkerHttp.searchArgument wh q).Limit ≤ wh.maxPerPage

instance (wh : WorkerHttp) (q : SearchQuery) : Decidable (pagingInBounds wh q) := by
  unfold pagingInBounds; infer_instance

/-- The dump operation answers with the not-found response. -/
def answersNotFound (h : Handled) : Prop :=
  h.response = statusError "Message not found" 404

instance (h : Handled) : Decidable (answersNotFound h) := by
  unfold answersNotFound; infer_instance

/-! ## Sequential traces of the Elastic storage -/

/-- One step of a sequential execution of the Elastic storage: a call of
`HandleMessage`, or one iteration of `PeriodicFlush` that passed the shutdown
check, with the clock readings, identifiers and bulk result it saw. -/
inductive Event where
  | handle (msg : GelfMessage)
  | flush (now now' : Time) (uuid : Nat → String) (doResult : Except String BulkResponse)

namespace Event

/-- The back end did not fail in this step: the bulk call, if made, returned
without error. -/
def backendOk : Event → Bool
  | .handle _ => true
  | .flush _ _ _ (.ok _) => true
  | .flush _ _ _ (.error _) => false

end Event

/-- The GELF messages handed to `HandleMessage` along a trace, in order. -/
def enqueued : List Event → List GelfMessage
  | [] => []
  | .handle msg :: rest => msg :: enqueued rest
  | .flush _ _ _ _ :: rest => enqueued rest

/-- Runs a trace from state `e`: the final state and the bulk requests handed
to the back end, one list per `Do()` call, in call order. -/
def Elastic.run (e : Elastic) : List Event → Elastic × List (List BulkIndexRequest)
  | [] => (e, [])
  | .handle msg :: rest => Elastic.run (Elastic.HandleMessage e msg) rest
  | .flush now now' uuid doResult :: rest =>
    let step := Elastic.flushBody e now now' uuid doResult
    let tail := Elastic.run step.1 rest
    match step.2.submitted with
    | some reqs => (tail.1, reqs :: tail.2)
    | none => tail

/-- The documents the back end has observed: those of all submitted bulk
requests, concatenated in submission order. -/
def observedDocs (batches : List (List BulkIndexRequest)) : List Message :=
  batches.flatten.map (fun r => r.Doc)

/-! ## Properties of the retention cleaner, as the specification words them -/

/-- A cleanup cycle did what the specification says of it: afterwards no record
stamped before the cutoff remains, and every record of the old index that is
not stamped before the cutoff is still there. -/
def Bleve.cleanedUp (b : Bleve) (index : BleveIndex) (now : Time) (cycle : CleanupCycle) : Prop :=
  Bleve.obsolete (Bleve.cutoff b now) cycle.index = [] ∧
    ∀ doc ∈ index, (doc.2.Timestamp.Before (Bleve.cutoff b now)) = false → doc ∈ cycle.index

/-! ## Properties of the shutdown, as the specification words them -/

/-- Process exit waits for every loop: if `actionRun` has returned, the flush
loop, the HTTP worker and the receiver worker have returned. -/
def Process.waitedForAllLoops (p : Process) : Prop :=
  p.actionRunReturned = true →
    p.flushRunning = false ∧ p.httpRunning = false ∧ p.receiverRunning = false

instance (p : Process) : Decidable (Process.waitedForAllLoops p) := by
  unfold Process.waitedForAllLoops; infer_instance

/-- The wait group counts the workers still running, the receiver has returned
only on a closed `die` channel, and `actionRun` has returned only on a counter
of zero. -/
def Process.consistent (p : Process) : Prop :=
  p.wgCounter = p.pendingWorkers ∧
    (p.receiverRunning = false → p.dieClosed = true) ∧
    (p.actionRunReturned = true → p.wgCounter = 0)

/-- The value of `maxResults` the specification gives the worker built by
`NewWorkerHttp`: the configured value, or 1000 when it is missing or not
positive. -/
def claimedMaxResults (cfg : HttpConfig) : Int :=
  match cfg.maxResults with
  | .error _ => 1000
  | .ok v => if v ≤ 0 then 1000 else v

/-! ## Sample states used to instantiate the properties -/

/-- A GELF message with host `h1`, sent at Unix time `1451606400`. -/
def sampleGelf : GelfMessage :=
  { Version := "1.1", Host := "h1", Short := "boot ok", Full := "", TimeUnix := 1451606400,
    Level := 6, Facility := "kernel", File := "", Line := 0, Extra := [] }

/-- A second GELF message, from host `h2`. -/
def sampleGelf2 : GelfMessage :=
  { Version := "1.1", Host := "h2", Short := "disk full", Full := "", TimeUnix := 1451606460,
    Level := 3, Facility := "kernel", File := "", Line := 0, Extra := [] }

/-- An Elastic storage with batch size 1, a flush interval of one second and
one pending message. -/
def sampleElastic : Elastic :=
  { batchSize := 1, indexName := "recause", typeName := "message", ttl := 2592000000,
    messages := [NewMessageFromGelf sampleGelf], intervalFlush := 1000000000,
    lastFlush := Time.Unix 1451606400 0 }

/-- A Bleve storage with batch size 1, a flush interval of one second and two
pending messages. -/
def sampleBleve : Bleve :=
  { batchSize := 1, messages := [NewMessageFromGelf sampleGelf, NewMessageFromGelf sampleGelf2],
    intervalCleanup := -2592000000000000, intervalFlush := 1000000000,
    lastFlush := Time.Unix 1451606400 0 }

/-- A clock reading three seconds after the sample states were created. -/
def sampleNow : Time := Time.Unix 1451606403 0

/-- A deterministic stand-in for the UUID generator: the `i`-th identifier. -/
def sampleUuid (i : Nat) : String := "uuid-" ++ toString i

/-- An Elastic storage with batch size 10 and an empty buffer. -/
def emptyElastic : Elastic := { sampleElastic with batchSize := 10, messages := [] }

/-- A trace: two messages, a flush that is not yet due, a third message, a
flush that is due, a fourth message. -/
def sampleTrace : List Event :=
  [ .handle sampleGelf, .handle sampleGelf2,
    .flush (Time.Unix 1451606400 0) (Time.Unix 1451606400 0) sampleUuid (.ok ⟨[]⟩),
    .handle sampleGelf,
    .flush (Time.Unix 1451606403 0) (Time.Unix 1451606403 0) sampleUuid (.ok ⟨[]⟩),
    .handle sampleGelf2 ]

/-- A configuration with `max_per_page = 100` and `max_results = 50`. -/
def narrowConfig : HttpConfig :=
  { addr := .ok ":8080", maxPerPage := .ok 100, maxResults := .ok 50 }

/-- A configuration that names the address only. -/
def bareConfig : HttpConfig :=
  { addr := .ok ":8080", maxPerPage := .error (.other "option not found"),
    maxResults := .error (.other "option not found") }

/-- The worker `NewWorkerHttp` builds from `narrowConfig`. -/
def narrowWorker : WorkerHttp := { addr := ":8080", maxPerPage := 100, maxResults := 50 }

/-- A worker with the default limits, 100 per page and 1000 results. -/
def defaultWorker : WorkerHttp := { addr := ":8080", maxPerPage := 100, maxResults := 1000 }

/-- A search query with the given text, limit and offset and no time range. -/
def plainQuery (query : String) (limit offset : Int) : SearchQuery :=
  { Query := query, Limit := limit, Offset := offset, From := Time.zero, To := Time.zero }

/-- A client `Get` for an empty index: every identifier is answered with the
404 error of Elasticsearch. -/
def emptyIndexGet (_index _type _id : String) : Except GoError String :=
  .error (.elastic 404 "Not Found")

/-- A client `Get` for an index holding one document, `doc-1`. -/
def oneDocGet (_index _type id : String) : Except GoError String :=
  if id = "doc-1" then .ok "host=h1" else .error (.elastic 404 "Not Found")

/-- A decoder that reads every source as a one-field document. -/
def sampleUnmarshal (source : String) : Except GoError Document := .ok [("source", source)]

/-- A search that finds nothing and echoes the page it was asked for. -/
def emptySearch (r : SearchRequest) : Except GoError SearchResult :=
  .ok { Total := 0, TookMs := 1, Limit := r.Size, Offset := r.From, Messages := [] }

/-- A validation that rejects every query. -/
def rejectAll (_query : String) : Option GoError := some (.other "Provided query is invalid")

/-- A JSON decoder that reads every body as a query made of that body. -/
def sampleParse (body : String) : Except GoError SearchQuery := .ok (plainQuery body 10 0)

/-- A query from 2016-01-01T00:00:00Z on, with no upper bound. -/
def alignedFromQuery : SearchQuery :=
  { Query := "", Limit := 10, Offset := 0, From := Time.Unix 1451606400 0, To := Time.zero }

/-- A query from 2016-01-01T00:00:00Z to 2016-01-01T00:01:01Z. -/
def alignedFromToQuery : SearchQuery :=
  { Query := "", Limit := 10, Offset := 0, From := Time.Unix 1451606400 0,
    To := Time.Unix 1451606461 0 }

/-- A Bleve storage built from an empty configuration section: batch size 10,
retention window 720 hours, flush interval one second. -/
def defaultBleve : Bleve :=
  NewBleveStorage
    { batchSize := .error (.other "option not found"),
      intervalCleanup := .error (.other "option not found"),
      intervalFlush := .error (.other "option not found") }
    (Time.Unix 1500000000 0)

/-- A stored message stamped 2016-01-01T00:00:00Z, long before any cutoff of
the samples. -/
def oldMessage : Message := NewMessageFromGelf sampleGelf

/-- A stored message stamped 1000 seconds before `cleanupNow`. -/
def freshMessage : Message := NewMessageFromGelf { sampleGelf2 with TimeUnix := 1499999000 }

/-- The clock reading of the sample cleanup cycle, 2017-07-14T02:40:00Z. -/
def cleanupNow : Time := Time.Unix 1500000000 0

/-- An index of `n` old documents `doc-0` .. `doc-(n-1)` followed by one fresh
document. -/
def agedIndex (n : Nat) : BleveIndex :=
  (List.range n).map (fun i => ("doc-" ++ toString i, oldMessage)) ++ [("fresh", freshMessage)]

/-- No call fails. -/
def neverFails (_pass : Nat) : Bool := false

/-- A shutdown in which both workers see the closed `die` channel, and
`wg.Wait()` is looked at, before `PeriodicFlush` starts its next iteration. -/
def earlyExit : List ProcessStep :=
  [.interrupt, .httpWatcher, .receiverIteration, .waitGroupWait, .flushIteration]

/-- A configuration with `max_per_page = 0` and `max_results = -5`. -/
def nonPositiveConfig : HttpConfig :=
  { addr := .ok ":8080", maxPerPage := .ok 0, maxResults := .ok (-5) }

/-- The first iteration of a flush loop that finds `die` closed. -/
def closedInput : FlushInput :=
  { dieClosed := true, now := sampleNow, now' := sampleNow, uuid := sampleUuid,
    doResult := .ok ⟨[]⟩ }

/-! # Properties -/

/-! ## Machine integers and the clock -/

theorem wrapInt64_of_fits (x : Int) (h : isInt64 x) : wrapInt64 x = x := by
  unfold isInt64 minInt64 maxInt64 at h
  unfold wrapInt64
  omega

/-! ## Flush trigger -/

theorem Elastic.bulkAdd_length (e : Elastic) (uuid : Nat → String) (ms : List Message) (i : Nat) :
    (Elastic.bulkAdd e uuid i ms).length = ms.length := by
  induction ms generalizing i with
  | nil => rfl
  | cons m rest ih => simp [Elastic.bulkAdd, ih]

theorem Elastic.bulkAdd_docs (e : Elastic) (uuid : Nat → String) (ms : List Message) (i : Nat) :
    (Elastic.bulkAdd e uuid i ms).map (fun r => r.Doc) = ms := by
  induction ms generalizing i with
  | nil => rfl
  | cons m rest ih => simp [Elastic.bulkAdd, ih]

theorem elastic_flushDue_iff (e : Elastic) (now : Time) :
    Elastic.flushDue e now = true ↔
      0 < e.messages.length ∧
        (e.batchSize ≤ (e.messages.length : Int) ∨ e.intervalFlush < now.Sub e.lastFlush) := by
  simp [Elastic.flushDue]

theorem bleve_flushDue_iff (b : Bleve) (now : Time) :
    Bleve.flushDue b now = true ↔
      0 < b.messages.length ∧
        (b.batchSize ≤ (b.messages.length : Int) ∨ b.intervalFlush < now.Sub b.lastFlush) := by
  simp [Bleve.flushDue]

theorem Time.Sub_eq_of_fits (t u : Time) (h : isInt64 (Time.nanosBetween t u)) :
    t.Sub u = Time.nanosBetween t u := by
  unfold isInt64 at h
  unfold Time.Sub
  simp only
  rw [if_neg (by omega), if_neg (by omega)]

theorem elastic_flushBody_due (e : Elastic) (now now' : Time) (uuid : Nat → String)
    (doResult : Except String BulkResponse) (h : Elastic.flushDue e now = true) :
    Elastic.flushBody e now now' uuid doResult =
      match doResult with
      | .error _ =>
        (e, { attempted := true, submitted := some (Elastic.bulkAdd e uuid 0 e.messages),
              logs := [⟨.warning, "Unable to batch index messages", []⟩] })
      | .ok esResponse =>
        ({ e with lastFlush := now', messages := [] },
          { attempted := true, submitted := some (Elastic.bulkAdd e uuid 0 e.messages),
            logs := [if ((esResponse.Indexed.length : Int) ≠ (e.messages.length : Int)) then
              ⟨.warning, "Not all messages were indexed",
                [("nb_messages", (e.messages.length : Int)),
                 ("nb_created", (esResponse.Indexed.length : Int))]⟩
            else
              ⟨.info, "Messages successfully indexed",
                [("nb_messages", (e.messages.length : Int))]⟩] }) := by
  have hpos : 0 < e.messages.length := ((elastic_flushDue_iff e now).1 h).1
  unfold Elastic.flushBody
  simp only [h, if_true, Elastic.bulkAdd_length, hpos]

theorem elastic_flushBody_not_due (e : Elastic) (now now' : Time) (uuid : Nat → String)
    (doResult : Except String BulkResponse) (h : Elastic.flushDue e now = false) :
    Elastic.flushBody e now now' uuid doResult =
      (e, { attempted := false, submitted := none, logs := [] }) := by
  unfold Elastic.flushBody
  simp [h]

theorem bleve_flushBody_not_due (b : Bleve) (now now' : Time) (uuid : Nat → String)
    (indexErr : String → Message → Option String) (batchResult : Option String)
    (h : Bleve.flushDue b now = false) :
    Bleve.flushBody b now now' uuid indexErr batchResult =
      (b, { attempted := false, submitted := none, logs := [] }) := by
  unfold Bleve.flushBody
  simp [h]

theorem bleve_flushBody_due (b : Bleve) (now now' : Time) (uuid : Nat → String)
    (indexErr : String → Message → Option String) (batchResult : Option String)
    (h : Bleve.flushDue b now = true) :
    Bleve.flushBody b now now' uuid indexErr batchResult =
      if 0 < (Bleve.indexAll uuid indexErr 0 b.messages ([], [])).1.Size then
        match batchResult with
        | some _ =>
          (b, { attempted := true,
                submitted := some (Bleve.indexAll uuid indexErr 0 b.messages ([], [])).1,
                logs := (Bleve.indexAll uuid indexErr 0 b.messages ([], [])).2 ++
                  [⟨.warning, "Unable to batch index messages", []⟩] })
        | none =>
          ({ b with lastFlush := now', messages := [] },
            { attempted := true,
              submitted := some (Bleve.indexAll uuid indexErr 0 b.messages ([], [])).1,
              logs := (Bleve.indexAll uuid indexErr 0 b.messages ([], [])).2 ++
                [⟨.info, "Messages successfully indexed",
                  [("nb_messages", (Bleve.indexAll uuid indexErr 0 b.messages ([], [])).1.Size)]⟩] })
      else
        (b, { attempted := true, submitted := none,
              logs := (Bleve.indexAll uuid indexErr 0 b.messages ([], [])).2 }) := by
  unfold Bleve.flushBody
  simp only [h, if_true]

/-- C1: one iteration of `PeriodicFlush` that passes the shutdown check enters
the flush branch if and only if `pending > 0` and (`pending >= batchSize` or
`now - lastFlush > flushInterval`), for the Elastic and the Bleve variant; the
Elastic variant then always submits a bulk write, and in every other state
neither variant submits a write or changes its state. -/
theorem periodicFlush_attempts_iff (e : Elastic) (b : Bleve) (now now' : Time)
    (uuid : Nat → String) (doResult : Except String BulkResponse)
    (indexErr : String → Message → Option String) (batchResult : Option String) :
    (∃ r, Elastic.PeriodicFlush e false now now' uuid doResult = some r ∧
      (r.2.attempted = true ↔
        flushCondition e.messages.length e.batchSize (now.Sub e.lastFlush) e.intervalFlush) ∧
      (r.2.submitted ≠ none ↔
        flushCondition e.messages.length e.batchSize (now.Sub e.lastFlush) e.intervalFlush) ∧
      (¬ flushCondition e.messages.length e.batchSize (now.Sub e.lastFlush) e.intervalFlush →
        r.1 = e ∧ r.2.submitted = none)) ∧
    (∃ r, Bleve.PeriodicFlush b false now now' uuid indexErr batchResult = some r ∧
      (r.2.attempted = true ↔
        flushCondition b.messages.length b.batchSize (now.Sub b.lastFlush) b.intervalFlush) ∧
      (r.2.submitted ≠ none →
        flushCondition b.messages.length b.batchSize (now.Sub b.lastFlush) b.intervalFlush) ∧
      (¬ flushCondition b.messages.length b.batchSize (now.Sub b.lastFlush) b.intervalFlush →
        r.1 = b ∧ r.2.submitted = none)) := by
  constructor
  · refine ⟨_, rfl, ?_⟩
    unfold flushCondition
    rw [← elastic_flushDue_iff]
    cases h : Elastic.flushDue e now
    · rw [elastic_flushBody_not_due e now now' uuid doResult h]
      simp
    · rw [elastic_flushBody_due e now now' uuid doResult h]
      cases doResult <;> simp
  · refine ⟨_, rfl, ?_⟩
    unfold flushCondition
    rw [← bleve_flushDue_iff]
    cases h : Bleve.flushDue b now
    · rw [bleve_flushBody_not_due b now now' uuid indexErr batchResult h]
      simp
    · rw [bleve_flushBody_due b now now' uuid indexErr batchResult h]
      split
      · cases batchResult <;> simp
      · simp

/-! ## Success and failure of a flush -/

theorem elastic_handleAll_messages (e : Elastic) (later : List GelfMessage) :
    (later.foldl Elastic.HandleMessage e).messages =
      e.messages ++ later.map NewMessageFromGelf := by
  induction later generalizing e with
  | nil => simp
  | cons m rest ih => simp [ih, Elastic.HandleMessage]

theorem bleve_handleAll_messages (b : Bleve) (later : List GelfMessage) :
    (later.foldl Bleve.HandleMessage b).messages =
      b.messages ++ later.map NewMessageFromGelf := by
  induction later generalizing b with
  | nil => simp
  | cons m rest ih => simp [ih, Bleve.HandleMessage]

theorem elastic_flushDue_of_condition (e : Elastic) (now : Time)
    (h : flushCondition e.messages.length e.batchSize (now.Sub e.lastFlush) e.intervalFlush) :
    Elastic.flushDue e now = true :=
  (elastic_flushDue_iff e now).2 h

theorem bleve_flushDue_of_condition (b : Bleve) (now : Time)
    (h : flushCondition b.messages.length b.batchSize (now.Sub b.lastFlush) b.intervalFlush) :
    Bleve.flushDue b now = true :=
  (bleve_flushDue_iff b now).2 h

/-- C2: in a triggered flush step of `PeriodicFlush`, a bulk write that succeeds
leaves the pending buffer empty and `lastFlush` at the current time; a bulk
write that returns an error leaves the buffer and `lastFlush` (the whole state)
as they were, so that the next triggered step submits the same records followed
by those enqueued meanwhile. Elastic and Bleve variants. -/
theorem periodicFlush_success_clears_failure_keeps (e : Elastic) (b : Bleve) (now now' : Time)
    (uuid : Nat → String) (indexErr : String → Message → Option String)
    (he : flushCondition e.messages.length e.batchSize (now.Sub e.lastFlush) e.intervalFlush)
    (hb : flushCondition b.messages.length b.batchSize (now.Sub b.lastFlush) b.intervalFlush) :
    (∀ esResponse : BulkResponse,
      (Elastic.flushBody e now now' uuid (.ok esResponse)).2.submitted ≠ none ∧
      (Elastic.flushBody e now now' uuid (.ok esResponse)).1.messages = [] ∧
      (Elastic.flushBody e now now' uuid (.ok esResponse)).1.lastFlush = now') ∧
    (∀ err : String,
      (Elastic.flushBody e now now' uuid (.error err)).2.submitted ≠ none ∧
      (Elastic.flushBody e now now' uuid (.error err)).1 = e ∧
      ∀ (later : List GelfMessage) (t t' : Time) (uuid2 : Nat → String)
        (doResult : Except String BulkResponse),
        Elastic.flushDue
          (later.foldl Elastic.HandleMessage (Elastic.flushBody e now now' uuid (.error err)).1)
          t = true →
        ((Elastic.flushBody
          (later.foldl Elastic.HandleMessage (Elastic.flushBody e now now' uuid (.error err)).1)
          t t' uuid2 doResult).2.submitted.map (fun reqs => reqs.map (fun r => r.Doc))) =
          some (e.messages ++ later.map NewMessageFromGelf)) ∧
    (((Bleve.flushBody b now now' uuid indexErr none).2.submitted ≠ none →
        (Bleve.flushBody b now now' uuid indexErr none).1.messages = [] ∧
        (Bleve.flushBody b now now' uuid indexErr none).1.lastFlush = now') ∧
      ((Bleve.flushBody b now now' uuid indexErr none).2.submitted = none →
        (Bleve.flushBody b now now' uuid indexErr none).1 = b)) ∧
    (∀ err : String,
      (Bleve.flushBody b now now' uuid indexErr (some err)).1 = b ∧
      ∀ later : List GelfMessage,
        (later.foldl Bleve.HandleMessage
          (Bleve.flushBody b now now' uuid indexErr (some err)).1).messages =
          b.messages ++ later.map NewMessageFromGelf) := by
  have hE := elastic_flushDue_of_condition e now he
  have hB := bleve_flushDue_of_condition b now hb
  refine ⟨?_, ?_, ?_, ?_⟩
  · intro esResponse
    rw [elastic_flushBody_due e now now' uuid _ hE]
    simp
  · intro err
    have hkeep : (Elastic.flushBody e now now' uuid (.error err)).1 = e := by
      rw [elastic_flushBody_due e now now' uuid _ hE]
    refine ⟨?_, hkeep, ?_⟩
    · rw [elastic_flushBody_due e now now' uuid _ hE]
      simp
    · intro later t t' uuid2 doResult hdue
      rw [hkeep] at hdue ⊢
      rw [elastic_flushBody_due _ t t' uuid2 doResult hdue]
      cases doResult <;>
        simp [Elastic.bulkAdd_docs, elastic_handleAll_messages]
  · rw [bleve_flushBody_due b now now' uuid indexErr none hB]
    split <;> simp
  · intro err
    have hkeep : (Bleve.flushBody b now now' uuid indexErr (some err)).1 = b := by
      rw [bleve_flushBody_due b now now' uuid indexErr _ hB]
      split <;> rfl
    refine ⟨hkeep, ?_⟩
    intro later
    rw [hkeep, bleve_handleAll_messages]

/-- Witness for C2 on the sample states: both are due for a flush, the Elastic
buffer is empty after a successful bulk write and unchanged after a failed
one. -/
theorem periodicFlush_success_clears_failure_keeps_witness :
    flushCondition sampleElastic.messages.length sampleElastic.batchSize
        (sampleNow.Sub sampleElastic.lastFlush) sampleElastic.intervalFlush ∧
      flushCondition sampleBleve.messages.length sampleBleve.batchSize
        (sampleNow.Sub sampleBleve.lastFlush) sampleBleve.intervalFlush ∧
      (Elastic.flushBody sampleElastic sampleNow sampleNow sampleUuid (.ok ⟨[]⟩)).1.messages = [] ∧
      (Elastic.flushBody sampleElastic sampleNow sampleNow sampleUuid
        (.error "connection refused")).1 = sampleElastic :=
  ⟨by decide, by decide,
    ((periodicFlush_success_clears_failure_keeps sampleElastic sampleBleve sampleNow sampleNow
      sampleUuid (fun _ _ => none) (by decide) (by decide)).1 ⟨[]⟩).2.1,
    ((periodicFlush_success_clears_failure_keeps sampleElastic sampleBleve sampleNow sampleNow
      sampleUuid (fun _ _ => none) (by decide) (by decide)).2.1 "connection refused").2.1⟩

/-! ## Records dropped by a flush -/

theorem Bleve.indexAll_logs_mono (uuid : Nat → String)
    (indexErr : String → Message → Option String) (ms : List Message) (start : Nat)
    (acc : Batch × List LogEntry) (x : LogEntry) (hx : x ∈ acc.2) :
    x ∈ (Bleve.indexAll uuid indexErr start ms acc).2 := by
  induction ms generalizing start acc with
  | nil => simpa [Bleve.indexAll] using hx
  | cons m rest ih =>
    obtain ⟨batch, logs⟩ := acc
    unfold Bleve.indexAll
    cases h : indexErr (uuid start) m with
    | none =>
      simp only [Batch.Index, h]
      exact ih _ _ hx
    | some err =>
      simp only [Batch.Index, h]
      exact ih _ _ (List.mem_append_left _ hx)

theorem Bleve.indexAll_warns (uuid : Nat → String)
    (indexErr : String → Message → Option String) (ms : List Message) (start : Nat)
    (acc : Batch × List LogEntry) (i : Nat) (m : Message) (hm : ms[i]? = some m)
    (herr : indexErr (uuid (start + i)) m ≠ none) :
    Bleve.refusedEntry ∈ (Bleve.indexAll uuid indexErr start ms acc).2 := by
  induction ms generalizing start acc i with
  | nil => simp at hm
  | cons m0 rest ih =>
    obtain ⟨batch, logs⟩ := acc
    cases i with
    | zero =>
      simp only [List.getElem?_cons_zero, Option.some.injEq] at hm
      subst hm
      unfold Bleve.indexAll
      cases h : indexErr (uuid start) m0 with
      | none => exact absurd h (by simpa using herr)
      | some err =>
        simp only [Batch.Index, h]
        exact Bleve.indexAll_logs_mono uuid indexErr rest (start + 1) _ _
          (List.mem_append_right _ (List.mem_singleton.2 rfl))
    | succ j =>
      simp only [List.getElem?_cons_succ] at hm
      have herr' : indexErr (uuid (start + 1 + j)) m ≠ none := by
        have : start + 1 + j = start + (j + 1) := by omega
        rw [this]; exact herr
      unfold Bleve.indexAll
      cases h : indexErr (uuid start) m0 with
      | none =>
        simp only [Batch.Index, h]
        exact ih (start + 1) _ j hm herr'
      | some err =>
        simp only [Batch.Index, h]
        exact ih (start + 1) _ j hm herr'

theorem Elastic.bulkAdd_getElem (e : Elastic) (uuid : Nat → String) (ms : List Message)
    (start i : Nat) (m : Message) (hm : ms[i]? = some m) :
    (Elastic.bulkAdd e uuid start ms)[i]? =
      some { Index := e.indexName, DocType := e.typeName, Id := uuid (start + i), Ttl := e.ttl,
             Doc := m } := by
  induction ms generalizing start i with
  | nil => simp at hm
  | cons m0 rest ih =>
    cases i with
    | zero =>
      simp only [List.getElem?_cons_zero, Option.some.injEq] at hm
      subst hm
      simp [Elastic.bulkAdd]
    | succ j =>
      simp only [List.getElem?_cons_succ] at hm
      simp only [Elastic.bulkAdd, List.getElem?_cons_succ]
      rw [ih (start + 1) j hm]
      have : start + 1 + j = start + (j + 1) := by omega
      rw [this]

theorem Bleve.indexAll_cons (uuid : Nat → String)
    (indexErr : String → Message → Option String) (start : Nat) (m0 : Message)
    (rest : List Message) (batch : Batch) (logs : List LogEntry) :
    Bleve.indexAll uuid indexErr start (m0 :: rest) (batch, logs) =
      match indexErr (uuid start) m0 with
      | some _ =>
        Bleve.indexAll uuid indexErr (start + 1) rest (batch, logs ++ [Bleve.refusedEntry])
      | none =>
        Bleve.indexAll uuid indexErr (start + 1) rest
          (batch.filter (fun op => op.1 != uuid start) ++ [(uuid start, m0)], logs) := by
  rw [Bleve.indexAll]
  cases h : indexErr (uuid start) m0 <;> simp [Batch.Index, h, Bleve.refusedEntry]

/-- An operation of the batch stays in it as long as no later message is offered
under the same identifier. -/
theorem Bleve.indexAll_survives (uuid : Nat → String)
    (indexErr : String → Message → Option String) (ms : List Message) (start : Nat)
    (acc : Batch × List LogEntry) (op : String × Message) (hop : op ∈ acc.1)
    (hfresh : ∀ j m', ms[j]? = some m' → uuid (start + j) ≠ op.1) :
    op ∈ (Bleve.indexAll uuid indexErr start ms acc).1 := by
  induction ms generalizing start acc with
  | nil => simpa [Bleve.indexAll] using hop
  | cons m0 rest ih =>
    obtain ⟨batch, logs⟩ := acc
    have h0 : uuid start ≠ op.1 := by
      have := hfresh 0 m0 (by simp)
      simpa using this
    have hrest : ∀ j m', rest[j]? = some m' → uuid (start + 1 + j) ≠ op.1 := by
      intro j m' hj
      have := hfresh (j + 1) m' (by simpa using hj)
      have hidx : start + 1 + j = start + (j + 1) := by omega
      rw [hidx]; exact this
    rw [Bleve.indexAll_cons]
    cases h : indexErr (uuid start) m0 with
    | some err => exact ih (start + 1) _ hop hrest
    | none =>
      refine ih (start + 1) _ ?_ hrest
      refine List.mem_append_left _ (List.mem_filter.2 ⟨hop, ?_⟩)
      simpa using fun hEq => h0 hEq.symm

/-- A message the batch accepted is in the batch under its identifier, no later
message being offered under the same identifier. -/
theorem Bleve.indexAll_accepted_mem (uuid : Nat → String)
    (indexErr : String → Message → Option String) (ms : List Message) (start : Nat)
    (acc : Batch × List LogEntry) (i : Nat) (m : Message) (hm : ms[i]? = some m)
    (hacc : indexErr (uuid (start + i)) m = none)
    (hdist : ∀ j m', ms[j]? = some m' → i < j → uuid (start + j) ≠ uuid (start + i)) :
    (uuid (start + i), m) ∈ (Bleve.indexAll uuid indexErr start ms acc).1 := by
  induction ms generalizing start acc i with
  | nil => simp at hm
  | cons m0 rest ih =>
    obtain ⟨batch, logs⟩ := acc
    rw [Bleve.indexAll_cons]
    cases i with
    | zero =>
      simp only [List.getElem?_cons_zero, Option.some.injEq] at hm
      subst hm
      rw [Nat.add_zero] at hacc ⊢
      rw [hacc]
      refine Bleve.indexAll_survives uuid indexErr rest (start + 1) _ _
        (List.mem_append_right _ (List.mem_singleton.2 rfl)) ?_
      intro j m' hj
      have := hdist (j + 1) m' (by simpa using hj) (Nat.succ_pos j)
      have hidx : start + 1 + j = start + (j + 1) := by omega
      rw [hidx]
      simpa using this
    | succ k =>
      simp only [List.getElem?_cons_succ] at hm
      have hidx : start + (k + 1) = start + 1 + k := by omega
      rw [hidx] at hacc ⊢
      have hdist' : ∀ j m', rest[j]? = some m' → k < j →
          uuid (start + 1 + j) ≠ uuid (start + 1 + k) := by
        intro j m' hj hkj
        have := hdist (j + 1) m' (by simpa using hj) (by omega)
        have h1 : start + (j + 1) = start + 1 + j := by omega
        rw [h1, hidx] at this
        exact this
      cases h : indexErr (uuid start) m0 with
      | some err => exact ih (start + 1) _ k hm hacc hdist'
      | none => exact ih (start + 1) _ k hm hacc hdist'

/-- An identifier that has an operation in the batch keeps one. -/
theorem Bleve.indexAll_id_mono (uuid : Nat → String)
    (indexErr : String → Message → Option String) (ms : List Message) (start : Nat)
    (acc : Batch × List LogEntry) (id : String) (h : ∃ data, (id, data) ∈ acc.1) :
    ∃ data, (id, data) ∈ (Bleve.indexAll uuid indexErr start ms acc).1 := by
  induction ms generalizing start acc with
  | nil => simpa [Bleve.indexAll] using h
  | cons m0 rest ih =>
    obtain ⟨batch, logs⟩ := acc
    rw [Bleve.indexAll_cons]
    cases hE : indexErr (uuid start) m0 with
    | some err => exact ih (start + 1) _ h
    | none =>
      refine ih (start + 1) _ ?_
      obtain ⟨data, hdata⟩ := h
      by_cases hid : id = uuid start
      · exact ⟨m0, List.mem_append_right _ (by rw [hid]; exact List.mem_singleton.2 rfl)⟩
      · refine ⟨data, List.mem_append_left _ (List.mem_filter.2 ⟨hdata, ?_⟩)⟩
        simpa using hid

/-- The identifier of a message the batch accepted has an operation in the
batch. -/
theorem Bleve.indexAll_accepted_id (uuid : Nat → String)
    (indexErr : String → Message → Option String) (ms : List Message) (start : Nat)
    (acc : Batch × List LogEntry) (i : Nat) (m : Message) (hm : ms[i]? = some m)
    (hacc : indexErr (uuid (start + i)) m = none) :
    ∃ data, (uuid (start + i), data) ∈ (Bleve.indexAll uuid indexErr start ms acc).1 := by
  induction ms generalizing start acc i with
  | nil => simp at hm
  | cons m0 rest ih =>
    obtain ⟨batch, logs⟩ := acc
    rw [Bleve.indexAll_cons]
    cases i with
    | zero =>
      simp only [List.getElem?_cons_zero, Option.some.injEq] at hm
      subst hm
      rw [Nat.add_zero] at hacc ⊢
      rw [hacc]
      exact Bleve.indexAll_id_mono uuid indexErr rest (start + 1) _ _
        ⟨m0, List.mem_append_right _ (List.mem_singleton.2 rfl)⟩
    | succ k =>
      simp only [List.getElem?_cons_succ] at hm
      have hidx : start + (k + 1) = start + 1 + k := by omega
      rw [hidx] at hacc ⊢
      cases h : indexErr (uuid start) m0 with
      | some err => exact ih (start + 1) _ k hm hacc
      | none => exact ih (start + 1) _ k hm hacc

/-- Every operation of the batch was there before or is an accepted message
under its identifier. -/
theorem Bleve.indexAll_sound (uuid : Nat → String)
    (indexErr : String → Message → Option String) (ms : List Message) (start : Nat)
    (acc : Batch × List LogEntry) (op : String × Message)
    (h : op ∈ (Bleve.indexAll uuid indexErr start ms acc).1) :
    op ∈ acc.1 ∨
      ∃ i m, ms[i]? = some m ∧ indexErr (uuid (start + i)) m = none ∧
        op = (uuid (start + i), m) := by
  induction ms generalizing start acc with
  | nil => exact Or.inl (by simpa [Bleve.indexAll] using h)
  | cons m0 rest ih =>
    obtain ⟨batch, logs⟩ := acc
    rw [Bleve.indexAll_cons] at h
    have shift : (∃ i m, rest[i]? = some m ∧ indexErr (uuid (start + 1 + i)) m = none ∧
          op = (uuid (start + 1 + i), m)) →
        ∃ i m, (m0 :: rest)[i]? = some m ∧ indexErr (uuid (start + i)) m = none ∧
          op = (uuid (start + i), m) := by
      rintro ⟨i, m, hm, hacc, hop⟩
      have hidx : start + 1 + i = start + (i + 1) := by omega
      rw [hidx] at hacc hop
      exact ⟨i + 1, m, by simpa using hm, hacc, hop⟩
    cases hE : indexErr (uuid start) m0 with
    | some err =>
      rw [hE] at h
      rcases ih (start + 1) _ h with hin | hex
      · exact Or.inl hin
      · exact Or.inr (shift hex)
    | none =>
      rw [hE] at h
      rcases ih (start + 1) _ h with hin | hex
      · rcases List.mem_append.1 hin with hold | hnew
        · exact Or.inl (List.mem_filter.1 hold).1
        · refine Or.inr ⟨0, m0, by simp, by simpa using hE, ?_⟩
          simpa using hnew
      · exact Or.inr (shift hex)

/-- C3, as worded, fails: a bulk response without error that lists no indexed
item empties the Elastic buffer although its record was not reported as stored,
and a Bleve batch that refused the second record still empties the buffer. -/
theorem flush_drops_unstored_records :
    ¬ Elastic.noRecordDropped sampleElastic sampleNow sampleNow sampleUuid (.ok ⟨[]⟩) ∧
    ¬ Bleve.noRecordDropped sampleBleve sampleNow sampleNow sampleUuid sampleIndexErr none := by
  constructor
  · intro h
    have h0 := h 0 (NewMessageFromGelf sampleGelf) rfl
    revert h0
    decide
  · intro h
    have h1 := h 1 (NewMessageFromGelf sampleGelf2) rfl
    rcases h1 with ⟨-, batch, hsub, hmem⟩ | hmem
    · have hbatch : (Bleve.flushBody sampleBleve sampleNow sampleNow sampleUuid sampleIndexErr
          none).2.submitted = some [(sampleUuid 0, NewMessageFromGelf sampleGelf)] := by decide
      rw [hbatch] at hsub
      cases hsub
      revert hmem
      decide
    · revert hmem
      decide

/-- C3, amended: in a triggered flush step, for every back-end response, every
record pending at the start is afterwards either still in the pending buffer or
was handed to the back end in a bulk write that returned no error, except for a
record the Bleve batch refused.
Elastic: a bulk error leaves the whole state as it was; a bulk call without
error empties the buffer after one index request per pending record, in buffer
order and under its fresh identifier, was submitted, whatever the response
lists: only the number of listed items is read, and the one log entry is the
warning "Not all messages were indexed" when that number differs from the
number submitted and the information "Messages successfully indexed" otherwise.
Bleve: a batch error, or a batch that accepted no record (no write is made
then), leaves the whole state as it was; when a record was accepted and the
batch call returns no error the buffer is emptied, the submitted batch holds
accepted pending records only, an operation under the identifier of every
accepted record, and, identifiers being distinct, every accepted record itself;
for every refused record the warning "Unable to add message to batch" is
written, and it is dropped with the buffer. -/
theorem flush_retains_or_clears_with_warning (e : Elastic) (b : Bleve) (now now' : Time)
    (uuid : Nat → String) (indexErr : String → Message → Option String)
    (he : flushCondition e.messages.length e.batchSize (now.Sub e.lastFlush) e.intervalFlush)
    (hb : flushCondition b.messages.length b.batchSize (now.Sub b.lastFlush) b.intervalFlush) :
    (∀ err : String,
      (Elastic.flushBody e now now' uuid (.error err)).1 = e ∧
      (Elastic.flushBody e now now' uuid (.error err)).2.submitted =
        some (Elastic.bulkAdd e uuid 0 e.messages)) ∧
    (∀ esResponse : BulkResponse,
      (Elastic.flushBody e now now' uuid (.ok esResponse)).1 =
        { e with lastFlush := now', messages := [] } ∧
      (∃ reqs, (Elastic.flushBody e now now' uuid (.ok esResponse)).2.submitted = some reqs ∧
        reqs.length = e.messages.length ∧
        reqs.map (fun r => r.Doc) = e.messages ∧
        ∀ (i : Nat) (m : Message), e.messages[i]? = some m →
          reqs[i]? = some { Index := e.indexName, DocType := e.typeName, Id := uuid i,
                            Ttl := e.ttl, Doc := m }) ∧
      (esResponse.Indexed.length ≠ e.messages.length →
        (Elastic.flushBody e now now' uuid (.ok esResponse)).2.logs =
          [⟨.warning, "Not all messages were indexed",
            [("nb_messages", (e.messages.length : Int)),
             ("nb_created", (esResponse.Indexed.length : Int))]⟩] ∧
        Elastic.warnsNotAllIndexed (Elastic.flushBody e now now' uuid (.ok esResponse)).2) ∧
      (esResponse.Indexed.length = e.messages.length →
        (Elastic.flushBody e now now' uuid (.ok esResponse)).2.logs =
          [⟨.info, "Messages successfully indexed",
            [("nb_messages", (e.messages.length : Int))]⟩])) ∧
    (∀ r1 r2 : BulkResponse, r1.Indexed.length = r2.Indexed.length →
      Elastic.flushBody e now now' uuid (.ok r1) = Elastic.flushBody e now now' uuid (.ok r2)) ∧
    (∀ err : String, (Bleve.flushBody b now now' uuid indexErr (some err)).1 = b) ∧
    ((∀ (i : Nat) (m : Message), b.messages[i]? = some m → indexErr (uuid i) m ≠ none) →
      ∀ batchResult : Option String,
        (Bleve.flushBody b now now' uuid indexErr batchResult).1 = b ∧
        (Bleve.flushBody b now now' uuid indexErr batchResult).2.submitted = none) ∧
    ((∃ (i : Nat) (m : Message), b.messages[i]? = some m ∧ indexErr (uuid i) m = none) →
      (Bleve.flushBody b now now' uuid indexErr none).1 =
        { b with lastFlush := now', messages := [] } ∧
      ∃ batch, (Bleve.flushBody b now now' uuid indexErr none).2.submitted = some batch ∧
        (∀ op ∈ batch, ∃ (i : Nat) (m : Message),
          b.messages[i]? = some m ∧ indexErr (uuid i) m = none ∧ op = (uuid i, m)) ∧
        (∀ (i : Nat) (m : Message), b.messages[i]? = some m → indexErr (uuid i) m = none →
          ∃ data, (uuid i, data) ∈ batch) ∧
        ((∀ i j : Nat, i < j → j < b.messages.length → uuid i ≠ uuid j) →
          ∀ (i : Nat) (m : Message), b.messages[i]? = some m → indexErr (uuid i) m = none →
            (uuid i, m) ∈ batch)) ∧
    (∀ (batchResult : Option String) (i : Nat) (m : Message), b.messages[i]? = some m →
      indexErr (uuid i) m ≠ none →
      Bleve.refusedEntry ∈ (Bleve.flushBody b now now' uuid indexErr batchResult).2.logs) ∧
    (∀ (doResult : Except String BulkResponse) (i : Nat) (m : Message),
      e.messages[i]? = some m →
      m ∈ (Elastic.flushBody e now now' uuid doResult).1.messages ∨
        ((∃ esResponse, doResult = .ok esResponse) ∧
          ∃ reqs, (Elastic.flushBody e now now' uuid doResult).2.submitted = some reqs ∧
            reqs[i]? = some { Index := e.indexName, DocType := e.typeName, Id := uuid i,
                              Ttl := e.ttl, Doc := m })) ∧
    ((∀ i j : Nat, i < j → j < b.messages.length → uuid i ≠ uuid j) →
      ∀ (batchResult : Option String) (i : Nat) (m : Message), b.messages[i]? = some m →
        m ∈ (Bleve.flushBody b now now' uuid indexErr batchResult).1.messages ∨
          (batchResult = none ∧ ∃ batch,
            (Bleve.flushBody b now now' uuid indexErr batchResult).2.submitted = some batch ∧
            (uuid i, m) ∈ batch) ∨
          (indexErr (uuid i) m ≠ none ∧
            Bleve.refusedEntry ∈
              (Bleve.flushBody b now now' uuid indexErr batchResult).2.logs)) := by
  have hE := elastic_flushDue_of_condition e now he
  have hB := bleve_flushDue_of_condition b now hb
  have hsound : ∀ op ∈ (Bleve.indexAll uuid indexErr 0 b.messages ([], [])).1,
      ∃ (i : Nat) (m : Message),
        b.messages[i]? = some m ∧ indexErr (uuid i) m = none ∧ op = (uuid i, m) := by
    intro op hop
    rcases Bleve.indexAll_sound uuid indexErr b.messages 0 ([], []) op hop with hnil | hex
    · simp at hnil
    · simpa using hex
  have hid : ∀ (i : Nat) (m : Message), b.messages[i]? = some m → indexErr (uuid i) m = none →
      ∃ data, (uuid i, data) ∈ (Bleve.indexAll uuid indexErr 0 b.messages ([], [])).1 := by
    intro i m hm hacc
    have := Bleve.indexAll_accepted_id uuid indexErr b.messages 0 ([], []) i m hm
      (by rw [Nat.zero_add]; exact hacc)
    rwa [Nat.zero_add] at this
  have hmem : (∀ i j : Nat, i < j → j < b.messages.length → uuid i ≠ uuid j) →
      ∀ (i : Nat) (m : Message), b.messages[i]? = some m → indexErr (uuid i) m = none →
        (uuid i, m) ∈ (Bleve.indexAll uuid indexErr 0 b.messages ([], [])).1 := by
    intro hdist i m hm hacc
    have := Bleve.indexAll_accepted_mem uuid indexErr b.messages 0 ([], []) i m hm
      (by rw [Nat.zero_add]; exact hacc)
      (by
        intro j m' hj hij
        rw [Nat.zero_add, Nat.zero_add]
        have hjlt : j < b.messages.length := by
          by_contra hge
          rw [List.getElem?_eq_none (by omega)] at hj
          exact absurd hj (by simp)
        exact fun hEq => hdist i j hij hjlt hEq.symm)
    rwa [Nat.zero_add] at this
  have hsize : ∀ (i : Nat) (m : Message), b.messages[i]? = some m → indexErr (uuid i) m = none →
      0 < (Bleve.indexAll uuid indexErr 0 b.messages ([], [])).1.Size := by
    intro i m hm hacc
    obtain ⟨data, hdata⟩ := hid i m hm hacc
    have hlen := List.length_pos_of_mem hdata
    unfold Batch.Size
    exact_mod_cast hlen
  have hrefused : ∀ (batchResult : Option String) (i : Nat) (m : Message),
      b.messages[i]? = some m → indexErr (uuid i) m ≠ none →
      Bleve.refusedEntry ∈ (Bleve.flushBody b now now' uuid indexErr batchResult).2.logs := by
    intro batchResult i m hm herr
    have hwarn := Bleve.indexAll_warns uuid indexErr b.messages 0 ([], []) i m hm
      (by rw [Nat.zero_add]; exact herr)
    rw [bleve_flushBody_due b now now' uuid indexErr _ hB]
    split
    · cases batchResult with
      | some err => exact List.mem_append_left _ hwarn
      | none => exact List.mem_append_left _ hwarn
    · exact hwarn
  refine ⟨?_, ?_, ?_, ?_, ?_, ?_, hrefused, ?_, ?_⟩
  · intro err
    rw [elastic_flushBody_due e now now' uuid _ hE]
    exact ⟨rfl, rfl⟩
  · intro esResponse
    rw [elastic_flushBody_due e now now' uuid _ hE]
    refine ⟨rfl, ⟨_, rfl, Elastic.bulkAdd_length e uuid e.messages 0,
      Elastic.bulkAdd_docs e uuid e.messages 0, ?_⟩, ?_, ?_⟩
    · intro i m hm
      have := Elastic.bulkAdd_getElem e uuid e.messages 0 i m hm
      rwa [Nat.zero_add] at this
    · intro hne
      have hne' : ((esResponse.Indexed.length : Int) ≠ (e.messages.length : Int)) := by
        exact_mod_cast hne
      simp [Elastic.warnsNotAllIndexed, hne']
    · intro heq
      simp [heq]
  · intro r1 r2 hlen
    rw [elastic_flushBody_due e now now' uuid _ hE, elastic_flushBody_due e now now' uuid _ hE]
    simp only [hlen]
  · intro err
    rw [bleve_flushBody_due b now now' uuid indexErr _ hB]
    split <;> rfl
  · intro hall batchResult
    have hnil : (Bleve.indexAll uuid indexErr 0 b.messages ([], [])).1 = [] := by
      apply List.eq_nil_iff_forall_not_mem.2
      intro op hop
      obtain ⟨i, m, hm, hacc, -⟩ := hsound op hop
      exact hall i m hm hacc
    rw [bleve_flushBody_due b now now' uuid indexErr _ hB]
    have hsize : ¬ 0 < (Bleve.indexAll uuid indexErr 0 b.messages ([], [])).1.Size := by
      rw [hnil]
      decide
    rw [if_neg hsize]
    exact ⟨rfl, rfl⟩
  · rintro ⟨i0, m0, hm0, hacc0⟩
    rw [bleve_flushBody_due b now now' uuid indexErr _ hB, if_pos (hsize i0 m0 hm0 hacc0)]
    exact ⟨rfl, _, rfl, hsound, hid, hmem⟩
  · intro doResult i m hm
    rw [elastic_flushBody_due e now now' uuid _ hE]
    cases doResult with
    | error err => exact Or.inl (List.getElem?_mem hm)
    | ok esResponse =>
      refine Or.inr ⟨⟨esResponse, rfl⟩, _, rfl, ?_⟩
      have := Elastic.bulkAdd_getElem e uuid e.messages 0 i m hm
      rwa [Nat.zero_add] at this
  · intro hdist batchResult i m hm
    cases hacc : indexErr (uuid i) m with
    | some err =>
      exact Or.inr (Or.inr ⟨by simp, hrefused batchResult i m hm (by simp [hacc])⟩)
    | none =>
      rw [bleve_flushBody_due b now now' uuid indexErr _ hB, if_pos (hsize i m hm hacc)]
      cases batchResult with
      | some err => exact Or.inl (List.getElem?_mem hm)
      | none => exact Or.inr (Or.inl ⟨rfl, _, rfl, hmem hdist i m hm hacc⟩)

/-- Witness for the amended C3 on the sample states, where the Bleve batch
accepts the first record and refuses the second: after a batch call without
error the buffer is empty, the accepted record is in the submitted batch under
its identifier, and the warning for the refused one is written. -/
theorem flush_retains_or_clears_with_warning_witness :
    flushCondition sampleElastic.messages.length sampleElastic.batchSize
        (sampleNow.Sub sampleElastic.lastFlush) sampleElastic.intervalFlush ∧
      flushCondition sampleBleve.messages.length sampleBleve.batchSize
        (sampleNow.Sub sampleBleve.lastFlush) sampleBleve.intervalFlush ∧
      (Elastic.flushBody sampleElastic sampleNow sampleNow sampleUuid (.ok ⟨[]⟩)).1 =
        { sampleElastic with lastFlush := sampleNow, messages := [] } ∧
      (Bleve.flushBody sampleBleve sampleNow sampleNow sampleUuid sampleIndexErr none).1 =
        { sampleBleve with lastFlush := sampleNow, messages := [] } ∧
      Bleve.refusedEntry ∈
        (Bleve.flushBody sampleBleve sampleNow sampleNow sampleUuid sampleIndexErr none).2.logs :=
  ⟨by decide, by decide,
    ((flush_retains_or_clears_with_warning sampleElastic sampleBleve sampleNow sampleNow
      sampleUuid sampleIndexErr (by decide) (by decide)).2.1 ⟨[]⟩).1,
    ((flush_retains_or_clears_with_warning sampleElastic sampleBleve sampleNow sampleNow
      sampleUuid sampleIndexErr (by decide) (by decide)).2.2.2.2.2.1
        ⟨0, NewMessageFromGelf sampleGelf, rfl, rfl⟩).1,
    (flush_retains_or_clears_with_warning sampleElastic sampleBleve sampleNow sampleNow
      sampleUuid sampleIndexErr (by decide) (by decide)).2.2.2.2.2.2.1 none 1
        (NewMessageFromGelf sampleGelf2) rfl (by decide)⟩

/-! ## Traces against a back end that never fails -/

theorem observedDocs_cons (reqs : List BulkIndexRequest) (batches : List (List BulkIndexRequest)) :
    observedDocs (reqs :: batches) = reqs.map (fun r => r.Doc) ++ observedDocs batches := by
  simp [observedDocs]

theorem Elastic.run_conserves (tr : List Event) (e : Elastic)
    (hok : ∀ ev ∈ tr, ev.backendOk = true) :
    observedDocs (Elastic.run e tr).2 ++ (Elastic.run e tr).1.messages =
      e.messages ++ (enqueued tr).map NewMessageFromGelf := by
  induction tr generalizing e with
  | nil => simp [Elastic.run, enqueued, observedDocs]
  | cons ev rest ih =>
    have hrest : ∀ ev' ∈ rest, ev'.backendOk = true :=
      fun ev' h' => hok ev' (List.mem_cons_of_mem _ h')
    cases ev with
    | handle msg =>
      simp only [Elastic.run, enqueued, List.map_cons]
      rw [ih _ hrest]
      simp [Elastic.HandleMessage]
    | flush now now' uuid doResult =>
      have hev := hok _ (List.mem_cons_self _ _)
      simp only [Elastic.run, enqueued]
      cases hdue : Elastic.flushDue e now with
      | false =>
        rw [elastic_flushBody_not_due e now now' uuid doResult hdue]
        exact ih e hrest
      | true =>
        rw [elastic_flushBody_due e now now' uuid doResult hdue]
        cases doResult with
        | error err => simp [Event.backendOk] at hev
        | ok esResponse =>
          simp only [observedDocs_cons, Elastic.bulkAdd_docs, List.append_assoc]
          rw [ih _ hrest]
          simp

/-- C4: for every finite sequential trace of `HandleMessage` calls and
`PeriodicFlush` iterations against a back end that never fails, started with an
empty buffer, the documents of the submitted bulk requests, concatenated in
order, followed by the records still pending, are exactly the enqueued records
in enqueue order; once the buffer is drained the back end has observed exactly
those `N` records, each once. -/
theorem run_observes_each_record_once (e : Elastic) (tr : List Event)
    (hempty : e.messages = []) (hok : ∀ ev ∈ tr, ev.backendOk = true) :
    observedDocs (Elastic.run e tr).2 ++ (Elastic.run e tr).1.messages =
        (enqueued tr).map NewMessageFromGelf ∧
      ((Elastic.run e tr).1.messages = [] →
        observedDocs (Elastic.run e tr).2 = (enqueued tr).map NewMessageFromGelf ∧
        (observedDocs (Elastic.run e tr).2).length = (enqueued tr).length) := by
  have h := Elastic.run_conserves tr e hok
  rw [hempty, List.nil_append] at h
  refine ⟨h, fun hdrained => ?_⟩
  rw [hdrained, List.append_nil] at h
  exact ⟨h, by rw [h, List.length_map]⟩

/-- Witness for C4: the sample trace, run from an empty buffer, submits the
first three records in one bulk request and keeps the fourth pending. -/
theorem run_observes_each_record_once_witness :
    emptyElastic.messages = [] ∧
      (∀ ev ∈ sampleTrace, ev.backendOk = true) ∧
      observedDocs (Elastic.run emptyElastic sampleTrace).2 ++
          (Elastic.run emptyElastic sampleTrace).1.messages =
        [NewMessageFromGelf sampleGelf, NewMessageFromGelf sampleGelf2,
          NewMessageFromGelf sampleGelf, NewMessageFromGelf sampleGelf2] :=
  ⟨rfl, by simp [sampleTrace, Event.backendOk],
    (run_observes_each_record_once emptyElastic sampleTrace rfl
      (by simp [sampleTrace, Event.backendOk])).1.trans rfl⟩

/-! ## Enqueueing -/

theorem Time.Unix_whole_seconds (sec : Int) :
    Time.Unix sec 0 = ⟨wrapInt64 (sec + Time.unixToInternal), 0⟩ := by
  unfold Time.Unix
  rw [if_neg (by omega)]

theorem Time.toUnix_Unix (sec : Int) (h : isInt64 sec) : (Time.Unix sec 0).toUnix = sec := by
  rw [Time.Unix_whole_seconds]
  unfold isInt64 minInt64 maxInt64 at h
  unfold Time.toUnix Time.unixToInternal wrapInt64
  simp only
  omega

/-- Beyond `maxInt64 - 62135596800` the internal seconds wrap around, and the
Unix-epoch seconds read back are still those given. -/
theorem Time.Unix_wraps_at_large_seconds :
    (Time.Unix 9223372036854774784 0).sec = -9223371974719180032 ∧
      (Time.Unix 9223372036854774784 0).toUnix = 9223372036854774784 := by
  decide

/-- C5: `HandleMessage m` leaves the pending buffer equal to the old buffer with
exactly one record appended at the end, that record being
`NewMessageFromGelf m`: all fields copied, identifier empty, and the timestamp
`time.Unix(m.TimeUnix, 0)`, a time with no fraction of a second whose
Unix-epoch seconds (`Timestamp.Unix()`) are those of `m` for every 64-bit
`TimeUnix`, and whose internal seconds are `TimeUnix + 62135596800` as long as
that sum is a 64-bit integer (beyond that Go wraps the sum around). The
existing entries and their order, `lastFlush` and the batch configuration are
unchanged. Elastic and Bleve variants. -/
theorem handleMessage_appends_one_record (e : Elastic) (b : Bleve) (m : GelfMessage) :
    ((Elastic.HandleMessage e m).messages = e.messages ++ [NewMessageFromGelf m] ∧
      (Elastic.HandleMessage e m).messages.length = e.messages.length + 1 ∧
      (Elastic.HandleMessage e m).messages.take e.messages.length = e.messages ∧
      (Elastic.HandleMessage e m).lastFlush = e.lastFlush ∧
      (Elastic.HandleMessage e m).batchSize = e.batchSize ∧
      (Elastic.HandleMessage e m).intervalFlush = e.intervalFlush ∧
      (Elastic.HandleMessage e m).indexName = e.indexName ∧
      (Elastic.HandleMessage e m).typeName = e.typeName ∧
      (Elastic.HandleMessage e m).ttl = e.ttl) ∧
    ((Bleve.HandleMessage b m).messages = b.messages ++ [NewMessageFromGelf m] ∧
      (Bleve.HandleMessage b m).messages.length = b.messages.length + 1 ∧
      (Bleve.HandleMessage b m).messages.take b.messages.length = b.messages ∧
      (Bleve.HandleMessage b m).lastFlush = b.lastFlush ∧
      (Bleve.HandleMessage b m).batchSize = b.batchSize ∧
      (Bleve.HandleMessage b m).intervalFlush = b.intervalFlush ∧
      (Bleve.HandleMessage b m).intervalCleanup = b.intervalCleanup) ∧
    ((NewMessageFromGelf m).Id = "" ∧
      (NewMessageFromGelf m).Version = m.Version ∧
      (NewMessageFromGelf m).Host = m.Host ∧
      (NewMessageFromGelf m).ShortMessage = m.Short ∧
      (NewMessageFromGelf m).FullMessage = m.Full ∧
      (NewMessageFromGelf m).Timestamp = Time.Unix m.TimeUnix 0 ∧
      (NewMessageFromGelf m).Timestamp.sec = wrapInt64 (m.TimeUnix + Time.unixToInternal) ∧
      (NewMessageFromGelf m).Timestamp.nsec = 0 ∧
      (isInt64 m.TimeUnix → (NewMessageFromGelf m).Timestamp.toUnix = m.TimeUnix) ∧
      (isInt64 (m.TimeUnix + Time.unixToInternal) →
        (NewMessageFromGelf m).Timestamp.sec = m.TimeUnix + Time.unixToInternal) ∧
      (NewMessageFromGelf m).Level = m.Level ∧
      (NewMessageFromGelf m).Facility = m.Facility ∧
      (NewMessageFromGelf m).File = m.File ∧
      (NewMessageFromGelf m).Line = m.Line ∧
      (NewMessageFromGelf m).Extra = m.Extra) := by
  have hts : (NewMessageFromGelf m).Timestamp = ⟨wrapInt64 (m.TimeUnix + Time.unixToInternal), 0⟩ :=
    Time.Unix_whole_seconds m.TimeUnix
  refine ⟨⟨rfl, ?_, ?_, rfl, rfl, rfl, rfl, rfl, rfl⟩, ⟨rfl, ?_, ?_, rfl, rfl, rfl, rfl⟩,
    rfl, rfl, rfl, rfl, rfl, rfl, ?_, ?_, ?_, ?_, rfl, rfl, rfl, rfl, rfl⟩
  · simp [Elastic.HandleMessage]
  · simp [Elastic.HandleMessage]
  · simp [Bleve.HandleMessage]
  · simp [Bleve.HandleMessage]
  · rw [hts]
  · rw [hts]
  · intro h
    exact Time.toUnix_Unix m.TimeUnix h
  · intro h
    rw [hts]
    exact wrapInt64_of_fits _ h

/-! ## Rewriting of limit and offset -/

theorem WorkerHttp.searchArgument_limit (wh : WorkerHttp) (q : SearchQuery) :
    (WorkerHttp.searchArgument wh q).Limit = claimedLimit q.Limit wh.maxPerPage := by
  unfold WorkerHttp.searchArgument WorkerHttp.clampOffset WorkerHttp.clampLimit claimedLimit
  split_ifs <;> rfl

theorem WorkerHttp.searchArgument_offset (wh : WorkerHttp) (q : SearchQuery) :
    (WorkerHttp.searchArgument wh q).Offset =
      if q.Offset < 0 then 0
      else if wh.maxResults < wrapInt64 (q.Offset + claimedLimit q.Limit wh.maxPerPage) then
        wrapInt64 (wh.maxResults - claimedLimit q.Limit wh.maxPerPage)
      else q.Offset := by
  unfold WorkerHttp.searchArgument WorkerHttp.clampOffset WorkerHttp.clampLimit claimedLimit
  split_ifs <;> simp_all

/-- C6, as worded, fails: with `maxPerPage = 100` and `maxResults = 50`, the
request `limit = 0`, `offset = -1` is passed on with limit 100 and offset 0,
although the rewritten offset plus the limit exceeds `maxResults`, for which
the claim gives the offset `maxResults - limit = -50`. -/
theorem negative_offset_skips_maxResults_test :
    (WorkerHttp.searchArgument narrowWorker (plainQuery "" 0 (-1))).Limit = 100 ∧
      (WorkerHttp.searchArgument narrowWorker (plainQuery "" 0 (-1))).Offset = 0 ∧
      claimedOffset (claimedLimit 0 narrowWorker.maxPerPage) (-1) narrowWorker.maxResults = -50 ∧
      (WorkerHttp.searchArgument narrowWorker (plainQuery "" 0 (-1))).Offset ≠
        claimedOffset (claimedLimit 0 narrowWorker.maxPerPage) (-1) narrowWorker.maxResults := by
  decide

/-- C6, amended: the limit passed to `GetMessages` is `maxPerPage` when
`limit <= 0` or `limit > maxPerPage`, otherwise `limit`; the offset passed is 0
when `offset < 0`, whatever `maxResults` is; for `offset >= 0`, when the offset
plus the limit passed exceeds `maxResults` the offset passed is
`maxResults - limit`, and otherwise the offset is unchanged (sum and difference
within the range of 64-bit integers). -/
theorem searchArgument_rewrites (wh : WorkerHttp) (q : SearchQuery) :
    (WorkerHttp.searchArgument wh q).Limit =
        (if q.Limit ≤ 0 ∨ wh.maxPerPage < q.Limit then wh.maxPerPage else q.Limit) ∧
      (q.Offset < 0 → (WorkerHttp.searchArgument wh q).Offset = 0) ∧
      (0 ≤ q.Offset →
        isInt64 (q.Offset + (WorkerHttp.searchArgument wh q).Limit) →
        isInt64 (wh.maxResults - (WorkerHttp.searchArgument wh q).Limit) →
        wh.maxResults < q.Offset + (WorkerHttp.searchArgument wh q).Limit →
        (WorkerHttp.searchArgument wh q).Offset =
          wh.maxResults - (WorkerHttp.searchArgument wh q).Limit) ∧
      (0 ≤ q.Offset →
        isInt64 (q.Offset + (WorkerHttp.searchArgument wh q).Limit) →
        q.Offset + (WorkerHttp.searchArgument wh q).Limit ≤ wh.maxResults →
        (WorkerHttp.searchArgument wh q).Offset = q.Offset) ∧
      (WorkerHttp.searchArgument wh q).Query = TrimSpace q.Query ∧
      (WorkerHttp.searchArgument wh q).From = q.From ∧
      (WorkerHttp.searchArgument wh q).To = q.To := by
  rw [WorkerHttp.searchArgument_offset, WorkerHttp.searchArgument_limit]
  refine ⟨rfl, ?_, ?_, ?_, ?_, ?_, ?_⟩
  · intro h
    rw [if_pos h]
  · intro h0 hsum hdiff hgt
    rw [if_neg (by omega), wrapInt64_of_fits _ hsum, if_pos hgt, wrapInt64_of_fits _ hdiff]
  · intro h0 hsum hle
    rw [if_neg (by omega), wrapInt64_of_fits _ hsum, if_neg (by omega)]
  · unfold WorkerHttp.searchArgument WorkerHttp.clampOffset WorkerHttp.clampLimit
    split_ifs <;> rfl
  · unfold WorkerHttp.searchArgument WorkerHttp.clampOffset WorkerHttp.clampLimit
    split_ifs <;> rfl
  · unfold WorkerHttp.searchArgument WorkerHttp.clampOffset WorkerHttp.clampLimit
    split_ifs <;> rfl

/-! ## Bounds on limit and offset -/

theorem NewWorkerHttp_maxPerPage_pos (cfg : HttpConfig) (wh : WorkerHttp)
    (h : NewWorkerHttp cfg = some wh) : 0 < wh.maxPerPage := by
  unfold NewWorkerHttp at h
  cases haddr : cfg.addr with
  | error err => simp [haddr] at h
  | ok addr =>
    simp only [haddr, Option.some.injEq] at h
    subst h
    cases cfg.maxPerPage with
    | error err => simp
    | ok v =>
      simp only
      split_ifs <;> omega

/-- C7, as worded, fails: the worker built from `max_per_page = 100` and
`max_results = 50` passes the request `limit = 100`, `offset = 0` on with the
offset `-50`. -/
theorem offset_negative_when_maxResults_below_limit :
    NewWorkerHttp narrowConfig = some narrowWorker ∧
      (WorkerHttp.searchArgument narrowWorker (plainQuery "h1" 100 0)).Offset = -50 ∧
      ¬ pagingInBounds narrowWorker (plainQuery "h1" 100 0) := by
  decide

/-- C7, amended: for every search request and every worker built by
`NewWorkerHttp`, the limit passed to `GetMessages` lies in `(0, maxPerPage]`,
and the offset passed is non-negative whenever that limit does not exceed
`maxResults` (so whenever `maxPerPage <= maxResults`). -/
theorem searchArgument_bounds (cfg : HttpConfig) (wh : WorkerHttp) (q : SearchQuery)
    (hbuilt : NewWorkerHttp cfg = some wh) (hres : isInt64 wh.maxResults) :
    0 < (WorkerHttp.searchArgument wh q).Limit ∧
      (WorkerHttp.searchArgument wh q).Limit ≤ wh.maxPerPage ∧
      ((WorkerHttp.searchArgument wh q).Limit ≤ wh.maxResults →
        0 ≤ (WorkerHttp.searchArgument wh q).Offset) ∧
      (wh.maxPerPage ≤ wh.maxResults → pagingInBounds wh q) := by
  have hpos := NewWorkerHttp_maxPerPage_pos cfg wh hbuilt
  have hlim : 0 < (WorkerHttp.searchArgument wh q).Limit ∧
      (WorkerHttp.searchArgument wh q).Limit ≤ wh.maxPerPage := by
    rw [WorkerHttp.searchArgument_limit]
    unfold claimedLimit
    split_ifs with hc <;> omega
  have hoff : (WorkerHttp.searchArgument wh q).Limit ≤ wh.maxResults →
      0 ≤ (WorkerHttp.searchArgument wh q).Offset := by
    intro hle
    rw [WorkerHttp.searchArgument_offset]
    rw [WorkerHttp.searchArgument_limit] at hle hlim
    split_ifs with h1 h2
    · exact le_refl 0
    · have hfit : isInt64 (wh.maxResults - claimedLimit q.Limit wh.maxPerPage) := by
        unfold isInt64 minInt64 maxInt64 at hres ⊢
        omega
      rw [wrapInt64_of_fits _ hfit]
      omega
    · omega
  exact ⟨hlim.1, hlim.2, hoff, fun hcfg => ⟨hoff (le_trans hlim.2 hcfg), hlim.1, hlim.2⟩⟩

/-- Witness for the amended C7: the worker built from an empty configuration
section has the default limits, and a request for 5000 results from offset 990
is passed on with limit 100 and a non-negative offset. -/
theorem searchArgument_bounds_witness :
    NewWorkerHttp bareConfig = some defaultWorker ∧
      isInt64 defaultWorker.maxResults ∧
      pagingInBounds defaultWorker (plainQuery "h1" 5000 990) :=
  ⟨rfl, by decide,
    (searchArgument_bounds bareConfig defaultWorker (plainQuery "h1" 5000 990) rfl (by decide)).2.2.2 (by decide)⟩

/-! ## Validation of the query string -/

theorem goLen_pos_iff (s : String) : 0 < goLen s ↔ s ≠ "" := by
  obtain ⟨cs⟩ := s
  unfold goLen
  have hzero : String.utf8ByteSize ⟨cs⟩ = 0 ↔ cs = [] := by
    rw [String.utf8ByteSize_mk, String.utf8Len_eq_zero]
  have hmk : (String.mk cs = "") ↔ cs = [] := by
    constructor
    · intro h
      exact congrArg String.data h
    · intro h
      rw [h]
  rw [Ne, hmk, ← hzero]
  omega

theorem WorkerHttp.runSearch_calls (wh : WorkerHttp) (st : Storage) (q : SearchQuery)
    (calls : List StorageCall) :
    (WorkerHttp.runSearch wh st q calls).calls =
      calls ++ [.getMessages (WorkerHttp.clampOffset wh (WorkerHttp.clampLimit wh q))] := by
  unfold WorkerHttp.runSearch
  simp only
  split <;> rfl

/-- C8: for a parseable search request, `handleApiSearch` calls
`Storage.ValidateQuery` if and only if the query is non-empty after trimming,
then exactly once, first, and with the trimmed string. With an empty trimmed
query the only storage call is the search; an error from the validation yields
the 400 response "Provided query is invalid" and no call to `GetMessages`. -/
theorem handleApiSearch_validates_iff_nonempty (wh : WorkerHttp) (st : Storage)
    (requestBody : String) (unmarshal : String → Except GoError SearchQuery)
    (parsed : SearchQuery) (hparse : unmarshal requestBody = .ok parsed) :
    (TrimSpace parsed.Query = "" →
      (WorkerHttp.handleApiSearch wh st (.ok requestBody) unmarshal).calls =
        [.getMessages (WorkerHttp.searchArgument wh parsed)]) ∧
    (TrimSpace parsed.Query ≠ "" → st.ValidateQuery (TrimSpace parsed.Query) = none →
      (WorkerHttp.handleApiSearch wh st (.ok requestBody) unmarshal).calls =
        [.validateQuery (TrimSpace parsed.Query),
          .getMessages (WorkerHttp.searchArgument wh parsed)]) ∧
    (TrimSpace parsed.Query ≠ "" →
      ∀ err, st.ValidateQuery (TrimSpace parsed.Query) = some err →
        (WorkerHttp.handleApiSearch wh st (.ok requestBody) unmarshal).calls =
          [.validateQuery (TrimSpace parsed.Query)] ∧
        (WorkerHttp.handleApiSearch wh st (.ok requestBody) unmarshal).response =
          statusError "Provided query is invalid" 400) ∧
    (∀ query : String,
      StorageCall.validateQuery query ∈
          (WorkerHttp.handleApiSearch wh st (.ok requestBody) unmarshal).calls ↔
        (TrimSpace parsed.Query ≠ "" ∧ query = TrimSpace parsed.Query)) ∧
    ((WorkerHttp.handleApiSearch wh st (.ok requestBody) unmarshal).calls.count
        (.validateQuery (TrimSpace parsed.Query)) =
      if TrimSpace parsed.Query = "" then 0 else 1) := by
  have hempty : TrimSpace parsed.Query = "" →
      (WorkerHttp.handleApiSearch wh st (.ok requestBody) unmarshal).calls =
        [.getMessages (WorkerHttp.searchArgument wh parsed)] := by
    intro ht
    have hlen : ¬ 0 < goLen (TrimSpace parsed.Query) := by
      rw [goLen_pos_iff]; simp [ht]
    unfold WorkerHttp.handleApiSearch
    simp only [hparse, hlen, if_false]
    rw [WorkerHttp.runSearch_calls]
    rfl
  have hvalid : TrimSpace parsed.Query ≠ "" → st.ValidateQuery (TrimSpace parsed.Query) = none →
      (WorkerHttp.handleApiSearch wh st (.ok requestBody) unmarshal).calls =
        [.validateQuery (TrimSpace parsed.Query),
          .getMessages (WorkerHttp.searchArgument wh parsed)] := by
    intro ht hv
    have hlen : 0 < goLen (TrimSpace parsed.Query) := (goLen_pos_iff _).2 ht
    unfold WorkerHttp.handleApiSearch
    simp only [hparse, hlen, if_true, hv]
    rw [WorkerHttp.runSearch_calls]
    rfl
  have hinvalid : TrimSpace parsed.Query ≠ "" →
      ∀ err, st.ValidateQuery (TrimSpace parsed.Query) = some err →
        (WorkerHttp.handleApiSearch wh st (.ok requestBody) unmarshal).calls =
          [.validateQuery (TrimSpace parsed.Query)] ∧
        (WorkerHttp.handleApiSearch wh st (.ok requestBody) unmarshal).response =
          statusError "Provided query is invalid" 400 := by
    intro ht err hv
    have hlen : 0 < goLen (TrimSpace parsed.Query) := (goLen_pos_iff _).2 ht
    unfold WorkerHttp.handleApiSearch
    simp only [hparse, hlen, if_true, hv]
    refine ⟨?_, ?_⟩ <;> first | rfl | trivial
  refine ⟨hempty, hvalid, hinvalid, ?_, ?_⟩
  · intro query
    by_cases ht : TrimSpace parsed.Query = ""
    · rw [hempty ht]
      simp [ht]
    · cases hv : st.ValidateQuery (TrimSpace parsed.Query) with
      | none =>
        rw [hvalid ht hv]
        simp [ht]
      | some err =>
        rw [(hinvalid ht err hv).1]
        simp [ht]
  · by_cases ht : TrimSpace parsed.Query = ""
    · rw [hempty ht]
      simp [ht]
    · cases hv : st.ValidateQuery (TrimSpace parsed.Query) with
      | none =>
        rw [hvalid ht hv]
        simp [ht]
      | some err =>
        rw [(hinvalid ht err hv).1]
        simp [ht]

/-- Witness for C8: a body of three blanks is parsed to a query that trims to the
empty string, and the only storage call is the search, although the storage
would reject every query. -/
theorem handleApiSearch_validates_iff_nonempty_witness :
    sampleParse "   " = .ok (plainQuery "   " 10 0) ∧
      (WorkerHttp.handleApiSearch defaultWorker
          (Elastic.storage sampleElastic emptyIndexGet sampleUnmarshal emptySearch rejectAll)
          (.ok "   ") sampleParse).calls =
        [.getMessages (WorkerHttp.searchArgument defaultWorker (plainQuery "   " 10 0))] :=
  ⟨rfl,
    (handleApiSearch_validates_iff_nonempty defaultWorker
      (Elastic.storage sampleElastic emptyIndexGet sampleUnmarshal emptySearch rejectAll)
      "   " sampleParse (plainQuery "   " 10 0) rfl).1 (by decide)⟩

/-! ## Search filters -/

/-- C9 at its failing input: a `from` of 2016-01-01T00:00:00Z is populated (not
the zero time) but its seconds-within-the-minute are 0, and `GetMessages`
builds no range filter for it; with a `to` of 00:01:01 the range filter has the
upper bound only. -/
theorem searchFilters_drops_minute_aligned_bound :
    alignedFromQuery.From.IsZero = false ∧
      alignedFromQuery.From.Second = 0 ∧
      Elastic.searchFilters alignedFromQuery = [EsQuery.matchAll] ∧
      Elastic.searchFilters alignedFromToQuery =
        [EsQuery.matchAll, EsQuery.range "timestamp" none (some alignedFromToQuery.To)] := by
  decide

/-! ## Dump of a document -/

/-- C10, as worded, fails: for an identifier absent from the index the client
returns the 404 error of Elasticsearch, `GetMessage` returns that error, and
`handleApiDump` answers with the generic 500 response, not with the not-found
response. -/
theorem absent_identifier_answered_with_500 :
    Elastic.GetMessage sampleElastic emptyIndexGet sampleUnmarshal "missing" =
        .error (.elastic 404 "Not Found") ∧
      (WorkerHttp.handleApiDump defaultWorker
          (Elastic.storage sampleElastic emptyIndexGet sampleUnmarshal emptySearch rejectAll)
          "missing").response =
        statusError "An error occured while getting message" 500 ∧
      ¬ answersNotFound (WorkerHttp.handleApiDump defaultWorker
          (Elastic.storage sampleElastic emptyIndexGet sampleUnmarshal emptySearch rejectAll)
          "missing") :=
  ⟨rfl, rfl, by decide⟩

/-- C10, amended: for an empty identifier the dump operation answers with the
not-found response (404, status "error", message "Message not found") without
calling the storage; for a non-empty identifier every error of `GetMessage`,
the not-found error of the back end for an absent identifier included, is
answered with the generic 500 response; a stored identifier whose source
decodes yields 200 with the document. A 500 is produced only for a non-empty
identifier on which `GetMessage` failed, a 404 only for the empty one. -/
theorem handleApiDump_answers (wh : WorkerHttp) (e : Elastic)
    (clientGet : String → String → String → Except GoError String)
    (unmarshal : String → Except GoError Document)
    (clientSearch : SearchRequest → Except GoError SearchResult)
    (clientValidate : String → Option GoError) (msgId : String) :
    (msgId = "" →
      WorkerHttp.handleApiDump wh
          (Elastic.storage e clientGet unmarshal clientSearch clientValidate) msgId =
        { response := statusError "Message not found" 404, calls := [], logs := [] }) ∧
    (msgId ≠ "" → ∀ err, clientGet e.indexName e.typeName msgId = .error err →
      (WorkerHttp.handleApiDump wh
          (Elastic.storage e clientGet unmarshal clientSearch clientValidate) msgId).response =
        statusError "An error occured while getting message" 500) ∧
    (msgId ≠ "" → ∀ source err, clientGet e.indexName e.typeName msgId = .ok source →
      unmarshal source = .error err →
      (WorkerHttp.handleApiDump wh
          (Elastic.storage e clientGet unmarshal clientSearch clientValidate) msgId).response =
        statusError "An error occured while getting message" 500) ∧
    (msgId ≠ "" → ∀ source doc, clientGet e.indexName e.typeName msgId = .ok source →
      unmarshal source = .ok doc →
      (WorkerHttp.handleApiDump wh
          (Elastic.storage e clientGet unmarshal clientSearch clientValidate) msgId).response =
        statusOk (.document doc)) ∧
    ((WorkerHttp.handleApiDump wh
          (Elastic.storage e clientGet unmarshal clientSearch clientValidate) msgId).response.code
        = 500 →
      msgId ≠ "" ∧ ∃ err, Elastic.GetMessage e clientGet unmarshal msgId = .error err) ∧
    ((WorkerHttp.handleApiDump wh
          (Elastic.storage e clientGet unmarshal clientSearch clientValidate) msgId).response.code
        = 404 ↔ msgId = "") := by
  by_cases hid : msgId = ""
  · subst hid
    have h0 : WorkerHttp.handleApiDump wh
        (Elastic.storage e clientGet unmarshal clientSearch clientValidate) "" =
        { response := statusError "Message not found" 404, calls := [], logs := [] } := rfl
    rw [h0]
    simp [statusError]
  · have hlen : ¬ goLen msgId = 0 := by
      have := (goLen_pos_iff msgId).2 hid
      omega
    unfold WorkerHttp.handleApiDump
    simp only [hlen, if_false, Elastic.storage, Elastic.GetMessage]
    refine ⟨fun h => absurd h hid, ?_, ?_, ?_, ?_, ?_⟩
    · intro _ err hget
      simp [hget]
    · intro _ source err hget hdec
      simp [hget, hdec]
    · intro _ source doc hget hdec
      simp [hget, hdec]
    · cases hget : clientGet e.indexName e.typeName msgId with
      | error err => simp [hid]
      | ok source =>
        cases hdec : unmarshal source with
        | error err => simp [hid, hdec]
        | ok doc => simp [hdec, statusOk]
    · cases hget : clientGet e.indexName e.typeName msgId with
      | error err => simp [hid, statusError]
      | ok source =>
        cases hdec : unmarshal source with
        | error err => simp [hid, hdec, statusError]
        | ok doc => simp [hid, hdec, statusOk]

/-! ## Retention cleaner -/

theorem Bleve.searchObsolete_subset (index : BleveIndex) (till : Time) (limit offset : Nat)
    (doc : String × Message) (h : doc ∈ Bleve.searchObsolete index till limit offset) :
    doc ∈ index ∧ doc.2.Timestamp.Before till = true := by
  unfold Bleve.searchObsolete Bleve.obsolete at h
  have h' := List.mem_of_mem_drop (List.mem_of_mem_take h)
  simpa using h'

theorem Bleve.cleanupPages_succ (till : Time) (searchFails batchFails : Nat → Bool)
    (fuel pass : Nat) (index : BleveIndex) (offset : Nat) (nbCleaned : Int)
    (logs : List LogEntry) :
    Bleve.cleanupPages till searchFails batchFails (fuel + 1) pass index offset nbCleaned logs =
      if searchFails pass then
        { index := index, nbCleaned := nbCleaned,
          logs := logs ++ [⟨.warning, "Unable to get obsolete messages from index", []⟩],
          finished := true }
      else if (Bleve.searchObsolete index till 20 offset).length = 0 then
        { index := index, nbCleaned := nbCleaned, logs := logs, finished := true }
      else if batchFails pass then
        { index := index, nbCleaned := nbCleaned,
          logs := logs ++ [⟨.warning, "Unable to delete obsolete messages from index", []⟩],
          finished := true }
      else
        Bleve.cleanupPages till searchFails batchFails fuel (pass + 1)
          (Bleve.batchDelete index
            ((Bleve.searchObsolete index till 20 offset).map (fun hit => hit.1)))
          (offset + 20)
          (nbCleaned +
            ((Bleve.searchObsolete index till 20 offset).map (fun hit => hit.1)).dedup.length)
          logs := by
  rfl

theorem Bleve.batchDelete_shrinks (index : BleveIndex) (till : Time) (limit offset : Nat)
    (hhits : (Bleve.searchObsolete index till limit offset).length ≠ 0) :
    (Bleve.batchDelete index
      ((Bleve.searchObsolete index till limit offset).map (fun hit => hit.1))).length <
      index.length := by
  obtain ⟨doc, hdoc⟩ := List.exists_mem_of_length_pos (Nat.pos_of_ne_zero hhits)
  unfold Bleve.batchDelete
  rw [List.length_filter_lt_length_iff_exists]
  refine ⟨doc, (Bleve.searchObsolete_subset index till limit offset doc hdoc).1, ?_⟩
  have hmem : doc.1 ∈ (Bleve.searchObsolete index till limit offset).map (fun hit => hit.1) :=
    List.mem_map.2 ⟨doc, hdoc, rfl⟩
  simp [hmem]

/-- The bound on the number of passes is never reached: the paging loop is left
through its own exits. -/
theorem Bleve.cleanupPages_finished (till : Time) (searchFails batchFails : Nat → Bool)
    (fuel pass : Nat) (index : BleveIndex) (offset : Nat) (nbCleaned : Int)
    (logs : List LogEntry) (hfuel : index.length < fuel) :
    (Bleve.cleanupPages till searchFails batchFails fuel pass index offset nbCleaned
      logs).finished = true := by
  induction fuel generalizing pass index offset nbCleaned logs with
  | zero => omega
  | succ fuel ih =>
    rw [Bleve.cleanupPages_succ]
    split_ifs with h1 h2 h3
    · rfl
    · rfl
    · rfl
    · apply ih
      have := Bleve.batchDelete_shrinks index till 20 offset h2
      omega

/-- A document that the date-range query does not match is never deleted, the
identifiers of the index being distinct. -/
theorem Bleve.cleanupPages_keeps_fresh (till : Time) (searchFails batchFails : Nat → Bool)
    (fuel pass : Nat) (index : BleveIndex) (offset : Nat) (nbCleaned : Int)
    (logs : List LogEntry) (hids : (index.map (fun d => d.1)).Nodup)
    (doc : String × Message) (hdoc : doc ∈ index) (hfresh : doc.2.Timestamp.Before till = false) :
    doc ∈ (Bleve.cleanupPages till searchFails batchFails fuel pass index offset nbCleaned
      logs).index := by
  induction fuel generalizing pass index offset nbCleaned logs with
  | zero => exact hdoc
  | succ fuel ih =>
    rw [Bleve.cleanupPages_succ]
    split_ifs with h1 h2 h3
    · exact hdoc
    · exact hdoc
    · exact hdoc
    · apply ih
      · unfold Bleve.batchDelete
        exact List.Nodup.sublist (List.Sublist.map _ (List.filter_sublist _)) hids
      · unfold Bleve.batchDelete
        rw [List.mem_filter]
        refine ⟨hdoc, ?_⟩
        have hnot : doc.1 ∉ (Bleve.searchObsolete index till 20 offset).map (fun hit => hit.1) := by
          intro hin
          obtain ⟨hit, hhit, hsame⟩ := List.mem_map.1 hin
          have hsub := Bleve.searchObsolete_subset index till 20 offset hit hhit
          have heq : hit = doc := List.inj_on_of_nodup_map hids hsub.1 hdoc hsame
          rw [heq, hfresh] at hsub
          exact absurd hsub.2 (by simp)
        simp [hnot]

/-- C11 at its failing input: with 21 documents older than the cutoff and one
newer document in the index, and no failing call, the cycle deletes the first
page of 20, asks for the next page at offset 20 of the one match that is left,
gets no hit and ends: the document `doc-20` older than the cutoff remains. -/
theorem periodicCleanup_leaves_obsolete_record :
    (Bleve.periodicCleanup defaultBleve (agedIndex 21) cleanupNow neverFails neverFails).finished
        = true ∧
      (Bleve.periodicCleanup defaultBleve (agedIndex 21) cleanupNow neverFails neverFails).index
        = [("doc-20", oldMessage), ("fresh", freshMessage)] ∧
      (Bleve.periodicCleanup defaultBleve (agedIndex 21) cleanupNow neverFails
        neverFails).nbCleaned = 20 ∧
      oldMessage.Timestamp.Before (Bleve.cutoff defaultBleve cleanupNow) = true ∧
      ¬ Bleve.cleanedUp defaultBleve (agedIndex 21) cleanupNow
        (Bleve.periodicCleanup defaultBleve (agedIndex 21) cleanupNow neverFails neverFails) := by
  have hindex :
      (Bleve.periodicCleanup defaultBleve (agedIndex 21) cleanupNow neverFails neverFails).index
        = [("doc-20", oldMessage), ("fresh", freshMessage)] := by decide
  refine ⟨by decide, hindex, by decide, by decide, ?_⟩
  intro h
  have h1 := h.1
  rw [hindex] at h1
  revert h1
  decide

theorem Bleve.periodicCleanup_finished (b : Bleve) (index : BleveIndex) (now : Time)
    (searchFails batchFails : Nat → Bool) :
    (Bleve.periodicCleanup b index now searchFails batchFails).finished = true := by
  unfold Bleve.periodicCleanup
  exact Bleve.cleanupPages_finished _ searchFails batchFails _ 0 index 0 0 [] (Nat.lt_succ_self _)

theorem Bleve.periodicCleanup_keeps_fresh (b : Bleve) (index : BleveIndex) (now : Time)
    (searchFails batchFails : Nat → Bool) (hids : (index.map (fun d => d.1)).Nodup)
    (doc : String × Message) (hdoc : doc ∈ index)
    (hfresh : doc.2.Timestamp.Before (Bleve.cutoff b now) = false) :
    doc ∈ (Bleve.periodicCleanup b index now searchFails batchFails).index := by
  unfold Bleve.periodicCleanup
  exact Bleve.cleanupPages_keeps_fresh _ searchFails batchFails _ 0 index 0 0 [] hids doc hdoc
    hfresh

/-! ## Shutdown -/

theorem Process.step_consistent (p : Process) (s : ProcessStep) (h : p.consistent) :
    (p.step s).consistent := by
  obtain ⟨dieClosed, wgCounter, flushRunning, httpRunning, receiverRunning, returned, panicked⟩
    := p
  unfold Process.consistent Process.pendingWorkers at h ⊢
  unfold Process.step
  cases s <;> cases dieClosed <;> cases flushRunning <;> cases httpRunning <;>
    cases receiverRunning <;> cases returned <;> cases panicked <;>
    simp_all <;> omega

theorem Process.run_consistent (steps : List ProcessStep) (p : Process) (h : p.consistent) :
    (p.run steps).consistent := by
  induction steps generalizing p with
  | nil => exact h
  | cons s rest ih => exact ih (p.step s) (Process.step_consistent p s h)

/-- The part of the waiting that `actionRun` does: when it has returned, the
HTTP worker and the receiver worker have returned and `die` is closed. -/
theorem Process.actionRun_waits_for_workers (steps : List ProcessStep)
    (h : (Process.start.run steps).actionRunReturned = true) :
    (Process.start.run steps).httpRunning = false ∧
      (Process.start.run steps).receiverRunning = false ∧
      (Process.start.run steps).dieClosed = true := by
  have hc := Process.run_consistent steps Process.start ⟨by decide, by decide, by decide⟩
  obtain ⟨h1, h2, h3⟩ := hc
  have h0 := h3 h
  rw [h0] at h1
  unfold Process.pendingWorkers at h1
  have hhttp : (Process.start.run steps).httpRunning = false := by
    cases hh : (Process.start.run steps).httpRunning <;>
      cases hr : (Process.start.run steps).receiverRunning <;> simp_all
  have hrecv : (Process.start.run steps).receiverRunning = false := by
    cases hh : (Process.start.run steps).httpRunning <;>
      cases hr : (Process.start.run steps).receiverRunning <;> simp_all
  exact ⟨hhttp, hrecv, h2 hrecv⟩

theorem Process.step_dieClosed (p : Process) (s : ProcessStep) (h : p.dieClosed = true) :
    (p.step s).dieClosed = true := by
  unfold Process.step
  cases s <;> split_ifs <;> simp_all

theorem Process.run_dieClosed (steps : List ProcessStep) (p : Process)
    (h : p.dieClosed = true) : (p.run steps).dieClosed = true := by
  induction steps generalizing p with
  | nil => exact h
  | cons s rest ih => exact ih (p.step s) (Process.step_dieClosed p s h)

/-- C12 at its failing schedule: after the interrupt both workers see the
closed `die` channel and run `wg.Done()`, `wg.Wait()` finds the counter at
zero and `actionRun` returns, while `PeriodicFlush`, which is not part of the
wait group, has not started the iteration that would see the signal. -/
theorem actionRun_returns_before_flush_loop :
    (Process.start.run earlyExit).actionRunReturned = true ∧
      (Process.start.run earlyExit).dieClosed = true ∧
      (Process.start.run earlyExit).httpRunning = false ∧
      (Process.start.run earlyExit).receiverRunning = false ∧
      (Process.start.run earlyExit).flushRunning = true ∧
      ¬ Process.waitedForAllLoops (Process.start.run earlyExit) := by
  decide

/-- C13: with the `die` channel closed, the next iteration of the receiver loop
returns and releases its wait-group handle without setting a deadline,
receiving or enqueuing; the next iteration of `PeriodicFlush` (Elastic and
Bleve) returns without a write, the storage, so the pending buffer and
`lastFlush`, being what it was; and a closed `die` channel stays closed through
every later step of the process, where the next iteration of each loop that is
still running returns. -/
theorem shutdown_is_level_triggered (e : Elastic) (b : Bleve) (deadlineErr : Option GoError)
    (read : ReadResult) (input : FlushInput) (rest : List FlushInput)
    (indexErr : String → Message → Option String) (batchResult : Option String)
    (p : Process) (steps : List ProcessStep) :
    WorkerReceiver.Run true deadlineErr read =
        { returned := true, wgDone := true, effects := [] } ∧
      Elastic.PeriodicFlush e true input.now input.now' input.uuid input.doResult = none ∧
      Elastic.PeriodicFlushLoop e ({ input with dieClosed := true } :: rest) =
        { storage := e, outcomes := [], returned := true } ∧
      Bleve.PeriodicFlush b true input.now input.now' input.uuid indexErr batchResult = none ∧
      (p.dieClosed = true → (p.run steps).dieClosed = true) ∧
      (p.dieClosed = true → (p.run steps).actionRunReturned = false →
        (p.run steps).panicked = false →
        ((p.run steps).step .receiverIteration).receiverRunning = false ∧
        ((p.run steps).step .flushIteration).flushRunning = false ∧
        ((p.run steps).step .httpWatcher).httpRunning = false) := by
  refine ⟨rfl, rfl, rfl, rfl, fun h => Process.run_dieClosed steps p h, ?_⟩
  intro h hret hpanic
  have hd := Process.run_dieClosed steps p h
  unfold Process.step
  simp only [hret, hpanic, hd, Bool.or_self, Bool.false_eq_true, if_false, Bool.and_true]
  refine ⟨?_, ?_, ?_⟩
  · cases hr : (p.run steps).receiverRunning <;> simp [hr]
  · cases hr : (p.run steps).flushRunning <;> simp [hr]
  · cases hr : (p.run steps).httpRunning <;> simp [hr]

/-! ## The window of results -/

/-- C14: when the worker has `0 < maxPerPage <= maxResults`, for every requested
limit and offset for which the sum the handler computes, the offset plus the
limit already rewritten, does not overflow the 64-bit integer, the values
passed to `GetMessages` satisfy `0 <= offset` and
`offset + limit <= maxResults`. -/
theorem searchArgument_within_window (wh : WorkerHttp) (q : SearchQuery)
    (hpos : 0 < wh.maxPerPage) (hle : wh.maxPerPage ≤ wh.maxResults)
    (hres : isInt64 wh.maxResults)
    (hsum : q.Offset + (WorkerHttp.searchArgument wh q).Limit ≤ maxInt64) :
    0 ≤ (WorkerHttp.searchArgument wh q).Offset ∧
      (WorkerHttp.searchArgument wh q).Offset + (WorkerHttp.searchArgument wh q).Limit ≤
        wh.maxResults := by
  have hlim : 0 < (WorkerHttp.searchArgument wh q).Limit ∧
      (WorkerHttp.searchArgument wh q).Limit ≤ wh.maxPerPage := by
    rw [WorkerHttp.searchArgument_limit]
    unfold claimedLimit
    split_ifs with hc <;> omega
  rw [WorkerHttp.searchArgument_offset]
  rw [WorkerHttp.searchArgument_limit] at hlim hsum ⊢
  unfold isInt64 minInt64 maxInt64 at hres
  unfold maxInt64 at hsum
  split_ifs with h1 h2
  · omega
  · have hfit : isInt64 (wh.maxResults - claimedLimit q.Limit wh.maxPerPage) := by
      unfold isInt64 minInt64 maxInt64
      omega
    rw [wrapInt64_of_fits _ hfit]
    omega
  · have hfit : isInt64 (q.Offset + claimedLimit q.Limit wh.maxPerPage) := by
      unfold isInt64 minInt64 maxInt64
      omega
    rw [wrapInt64_of_fits _ hfit] at h2
    omega

/-- Witness for C14: with the default limits a request for 5000 results from
offset 990 is passed on within the window of 1000 results. -/
theorem searchArgument_within_window_witness :
    0 < defaultWorker.maxPerPage ∧ defaultWorker.maxPerPage ≤ defaultWorker.maxResults ∧
      isInt64 defaultWorker.maxResults ∧
      (plainQuery "h1" 5000 990).Offset +
          (WorkerHttp.searchArgument defaultWorker (plainQuery "h1" 5000 990)).Limit ≤ maxInt64 ∧
      0 ≤ (WorkerHttp.searchArgument defaultWorker (plainQuery "h1" 5000 990)).Offset ∧
      (WorkerHttp.searchArgument defaultWorker (plainQuery "h1" 5000 990)).Offset +
          (WorkerHttp.searchArgument defaultWorker (plainQuery "h1" 5000 990)).Limit ≤
        defaultWorker.maxResults :=
  ⟨by decide, by decide, by decide, by decide,
    searchArgument_within_window defaultWorker (plainQuery "h1" 5000 990) (by decide)
      (by decide) (by decide) (by decide)⟩

/-! ## Limits of the worker -/

theorem NewWorkerHttp_maxResults (cfg : HttpConfig) (wh : WorkerHttp)
    (h : NewWorkerHttp cfg = some wh) :
    wh.maxResults = match cfg.maxResults with
      | .error _ => 1000
      | .ok v => v := by
  have hpos := NewWorkerHttp_maxPerPage_pos cfg wh h
  unfold NewWorkerHttp at h
  cases haddr : cfg.addr with
  | error err => simp [haddr] at h
  | ok addr =>
    simp only [haddr, Option.some.injEq] at h
    subst h
    simp only at hpos ⊢
    cases cfg.maxResults with
    | error err => rfl
    | ok v =>
      simp only
      rw [if_neg (by omega)]

/-- C15 at its failing input: for `max_per_page = 0` and `max_results = -5` the
worker is built with `maxPerPage = 100`, the default, and `maxResults = -5`,
the configured value; the test that guards the default 1000 reads
`maxPerPage`, which is positive by then. -/
theorem NewWorkerHttp_keeps_nonpositive_maxResults :
    NewWorkerHttp nonPositiveConfig =
        some { addr := ":8080", maxPerPage := 100, maxResults := -5 } ∧
      claimedMaxResults nonPositiveConfig = 1000 ∧
      ¬ (∀ wh, NewWorkerHttp nonPositiveConfig = some wh → 0 < wh.maxResults) := by
  refine ⟨by decide, by decide, ?_⟩
  intro h
  have := h { addr := ":8080", maxPerPage := 100, maxResults := -5 } (by decide)
  revert this
  decide

end Recause
